import Mathlib

/-!
Verification development for the prop-analyzer betting pipeline.

The Python sources are shallowly embedded: floats are modelled as rationals,
dictionaries as association lists, fallible operations as `Except String` or
`Option`, and the sqlite connection as an explicit committed-state plus
pending-write-list pair.  Each definition names the source function it
embeds (module and function name in its doc comment).
-/

namespace PropAnalyzer

/-- Character-list helper: value of a list of decimal digit characters. -/
def digitsToNat (cs : List Char) : Nat :=
  cs.foldl (fun a c => 10 * a + (c.toNat - '0'.toNat)) 0

/-- Exact decimal literal: sign, integer digits, fractional digits and the
number of fractional digits.  Intermediate result of float parsing, kept
separate from the rational value so that parsing is computable by the kernel. -/
structure DecimalLit where
  neg : Bool
  ip : ℕ
  fr : ℕ
  k : ℕ
deriving DecidableEq, Repr

/-- Rational value of a decimal literal. -/
def DecimalLit.toRat (d : DecimalLit) : ℚ :=
  (if d.neg then -1 else 1) * ((d.ip : ℚ) + (d.fr : ℚ) / (10 : ℚ) ^ d.k)

/-- Character-level decimal parsing: optional surrounding spaces, optional
sign, digits, optional decimal point. -/
def parseDecimalList? (cs : List Char) : Option DecimalLit :=
  let cs := cs.dropWhile (· = ' ') |>.reverse.dropWhile (· = ' ') |>.reverse
  let signAndRest : Bool × List Char :=
    match cs with
    | '-' :: rest => (true, rest)
    | '+' :: rest => (false, rest)
    | _ => (false, cs)
  let neg := signAndRest.1
  let body := signAndRest.2
  let intPart := body.takeWhile Char.isDigit
  let rest := body.dropWhile Char.isDigit
  match rest with
  | [] =>
    if intPart.isEmpty then none
    else some ⟨neg, digitsToNat intPart, 0, 0⟩
  | '.' :: frac =>
    if frac.all Char.isDigit ∧ ¬(intPart.isEmpty ∧ frac.isEmpty) then
      some ⟨neg, digitsToNat intPart, digitsToNat frac, frac.length⟩
    else none
  | _ => none

/-- Models Python float parsing (the builtin float applied to a plain decimal
literal: optional sign, digits, optional decimal point).  Scientific notation,
infinities and NaN never occur in this pipeline and are out of the model. -/
def parseFloat? (s : String) : Option ℚ :=
  (parseDecimalList? s.data).map DecimalLit.toRat

/-- Models Python int parsing (the builtin int applied to a decimal string:
optional sign followed by at least one digit). -/
def parseInt? (s : String) : Option ℤ :=
  let cs := s.data.dropWhile (· = ' ') |>.reverse.dropWhile (· = ' ') |>.reverse
  let signAndRest : ℤ × List Char :=
    match cs with
    | '-' :: rest => (-1, rest)
    | '+' :: rest => (1, rest)
    | _ => (1, cs)
  let body := signAndRest.2
  if body.isEmpty ∨ ¬body.all Char.isDigit then none
  else some (signAndRest.1 * (digitsToNat body : ℤ))

/-- Digits of the fractional part of a rational in decimal, with fuel; used to
model Python string formatting of floats that are exact decimals. -/
def fracDigitsAux : Nat → ℚ → String
  | 0, _ => ""
  | n + 1, q =>
    if q = 0 then ""
    else
      let q10 := q * 10
      toString ⌊q10⌋ ++ fracDigitsAux n (q10 - (⌊q10⌋ : ℚ))

/-- Models Python str applied to a float whose value is an exact decimal:
integer part, a decimal point, and the fractional digits with trailing zeros
stripped; an integral value renders with a single trailing zero digit. -/
def formatFloat (q : ℚ) : String :=
  let sign := if q < 0 then "-" else ""
  let a := |q|
  let ip := ⌊a⌋
  let fr := a - (ip : ℚ)
  if fr = 0 then sign ++ toString ip ++ ".0"
  else sign ++ toString ip ++ "." ++ fracDigitsAux 40 fr

/-- Rounding half to even, the behavior of numpy round used by the settlement
delta computation. -/
def roundHalfEven (q : ℚ) : ℤ :=
  let f := q - (⌊q⌋ : ℚ)
  if f < 1 / 2 then ⌊q⌋
  else if 1 / 2 < f then ⌊q⌋ + 1
  else if 2 ∣ ⌊q⌋ then ⌊q⌋ else ⌊q⌋ + 1

/-- Models Python float division, which raises ZeroDivisionError on a zero
denominator. -/
def pydiv (a b : ℚ) : Except String ℚ :=
  if b = 0 then .error "ZeroDivisionError: float division by zero"
  else .ok (a / b)

/-- Embeds constants.VALID_RANGES for the score (Python floats 20.00, 100.00). -/
def validScoreRange : ℚ × ℚ := (20, 100)

/-- Embeds constants.VALID_RANGES for the odds. -/
def validOddsRange : ℤ × ℤ := (-1000, 1000)

/-- Embeds the loss branch of process_bets._calculate_results:
result_delta is minus the rounded quotient 100 / (odds / 100) when odds is
positive, and the odds value itself otherwise. -/
def lossDelta (odds : ℚ) : Except String ℚ :=
  if 0 < odds then do
    let x ← pydiv 100 (odds / 100)
    pure (-(roundHalfEven x : ℚ))
  else pure odds

/-- Modelled from the spec sentence for claim comparison only: a Loss yields
odds directly if odds is negative, else -round(100 / (odds/100)).  This is the
claimed formula, to be diffed against lossDelta taken from the source. -/
def claimLossDelta (odds : ℚ) : Except String ℚ :=
  if odds < 0 then pure odds
  else do
    let x ← pydiv 100 (odds / 100)
    pure (-(roundHalfEven x : ℚ))

/-- Row of raw_ocr_bets as read by the settlement engine
(process_bets._get_unprocessed_bets selects these seven columns). -/
structure OcrBet where
  id : ℕ
  player_id : ℕ
  bet_type : String
  score : ℚ
  date : String
  bet_line : String
  odds : ℤ
deriving DecidableEq, Repr

/-- Output tuple of process_bets._calculate_results. -/
structure CalcOut where
  result : String
  result_delta : ℚ
  stat_result : ℚ
  line_value : ℚ
  over_under : String
deriving DecidableEq, Repr

/-- Drops the first character of a string; models the Python slice of
bet_line from index one. -/
def strTail (s : String) : String := String.mk (s.data.drop 1)

/-- Whether a string starts with the given character; models the Python
startswith test for a single character. -/
def strHead? (s : String) (c : Char) : Bool :=
  match s.data with
  | [] => false
  | c2 :: _ => c2 = c

/-- Embeds process_bets._calculate_results.  The game stats dictionary is an
association list; a missing bet type key is the KeyError of the dictionary
access, a non-numeric line suffix is the ValueError of the float conversion,
and the push case raises. -/
def calcResults (bet : OcrBet) (gs : List (String × ℚ)) : Except String CalcOut := do
  let statValue ←
    match gs.lookup bet.bet_type with
    | some v => pure v
    | none => .error "KeyError: bet_type not in game_stats"
  let lineValue ←
    match parseFloat? (strTail bet.bet_line) with
    | some v => pure v
    | none => .error "ValueError: could not convert string to float"
  let overUnder ←
    if strHead? bet.bet_line 'o' then pure "Over"
    else if strHead? bet.bet_line 'u' then pure "Under"
    else .error "ValueError: invalid bet line format"
  let result :=
    if (statValue > lineValue ∧ overUnder = "Over") ∨
       (statValue < lineValue ∧ overUnder = "Under") then "Win"
    else if (statValue < lineValue ∧ overUnder = "Over") ∨
            (statValue > lineValue ∧ overUnder = "Under") then "Loss"
    else "Push"
  if result = "Push" then .error "Bet resulted in a push"
  else
    let resultDelta ←
      if result = "Win" then pure (100 : ℚ)
      else lossDelta (bet.odds : ℚ)
    pure ⟨result, resultDelta, statValue, lineValue, overUnder⟩

/-- Embeds process_bets._calculate_score_range: fixed five-point buckets from
20 to 50 and an open bucket above, raising below 20. -/
def calcScoreRange (score : ℚ) : Except String String :=
  if score < 20 then .error "Score is less than 20"
  else if score < 25 then .ok "20-25"
  else if score < 30 then .ok "25-30"
  else if score < 35 then .ok "30-35"
  else if score < 40 then .ok "35-40"
  else if score < 45 then .ok "40-45"
  else if score < 50 then .ok "45-50"
  else .ok "50+"

/-! Review classifier (image_processor._bet_needs_review). -/

/-- Candidate record as inspected by the review classifier: the cleaned
per-bet fields.  Score and bet line are still strings at this stage; odds
were already converted to a nullable integer by clean_data. -/
structure BetEntry where
  player : Option String
  bet_type : Option String
  score : Option String
  bet_line : Option String
  odds : Option ℤ
  date : Option String
deriving DecidableEq, Repr

/-- Embeds the value set of constants.TYPE_REPLACEMENTS, the canonical
settlement categories. -/
def canonicalBetTypes : List String :=
  ["rebs_asts", "pts_asts", "pts_rebs", "three_pointers", "par",
   "blocks", "steals", "turnovers", "points", "assists", "rebounds"]

/-- Embeds the bet line regex of the classifier: a full match of one of the
characters o or u, one or more digits, then the exact suffix point five. -/
def betLineFormatOk (s : String) : Bool :=
  match s.data with
  | [] => false
  | c :: rest =>
    (c = 'o' ∨ c = 'u') ∧
    (let ds := rest.takeWhile Char.isDigit
     let tail := rest.dropWhile Char.isDigit
     ¬ds.isEmpty ∧ tail = ['.', '5'])

/-- Splits a character list on a separator character. -/
def splitOnCharAux (sep : Char) : List Char → List Char → List (List Char)
  | [], acc => [acc.reverse]
  | x :: xs, acc =>
    if x = sep then acc.reverse :: splitOnCharAux sep xs []
    else splitOnCharAux sep xs (x :: acc)

/-- Split of a character list on a separator character, top level. -/
def splitOnChar (sep : Char) (cs : List Char) : List (List Char) :=
  splitOnCharAux sep cs []

/-- Gregorian leap year test. -/
def isLeap (y : ℕ) : Bool := (y % 4 = 0 ∧ y % 100 ≠ 0) ∨ y % 400 = 0

/-- Number of days of a month in a given year. -/
def daysInMonth (y m : ℕ) : ℕ :=
  if m = 2 then (if isLeap y then 29 else 28)
  else if m = 4 ∨ m = 6 ∨ m = 9 ∨ m = 11 then 30
  else 31

/-- Validity of a year, month, day triple as a calendar date. -/
def validYMD (y m d : ℕ) : Bool :=
  1 ≤ m ∧ m ≤ 12 ∧ 1 ≤ d ∧ d ≤ daysInMonth y m

/-- Models the pandas datetime parse succeeding on the canonical
year-month-day form produced by clean_data, the only date format flowing
through this pipeline. -/
def dateOkISO (s : String) : Bool :=
  match splitOnChar '-' s.data with
  | [ys, ms, ds] =>
    ys.length = 4 ∧ ys.all Char.isDigit ∧
    (¬ms.isEmpty ∧ ms.length ≤ 2 ∧ ms.all Char.isDigit) ∧
    (¬ds.isEmpty ∧ ds.length ≤ 2 ∧ ds.all Char.isDigit) ∧
    validYMD (digitsToNat ys) (digitsToNat ms) (digitsToNat ds)
  | _ => false

/-- Review reason for an out-of-range score, with the Python float formatting
of the configured bounds and of the parsed score. -/
def scoreRangeReasonStr (q : ℚ) : String :=
  let lo := formatFloat validScoreRange.1
  let hi := formatFloat validScoreRange.2
  let sc := formatFloat q
  "Score out of expected range [" ++ lo ++ "," ++ hi ++ "]: " ++ sc

/-- Review reason for out-of-range odds, with the Python int formatting of
the configured bounds and of the odds. -/
def oddsRangeReasonStr (n : ℤ) : String :=
  let lo := toString validOddsRange.1
  let hi := toString validOddsRange.2
  "Odds out of expected range [" ++ lo ++ "," ++ hi ++ "]: " ++ toString n

/-- Player check of the classifier: an empty or missing name is missing, a
name absent from the cached player id dictionary is not found. -/
def reviewPlayerReasons (playerIds : List (String × ℕ)) (b : BetEntry) : Finset String :=
  match b.player with
  | none => {"Missing player name"}
  | some p =>
    if p = "" then {"Missing player name"}
    else if (playerIds.lookup p).isSome then ∅
    else {"Player not found: " ++ p}

/-- Bet type check of the classifier. -/
def reviewBetTypeReasons (b : BetEntry) : Finset String :=
  match b.bet_type with
  | none => {"Missing bet type"}
  | some t =>
    if t = "" then {"Missing bet type"}
    else if t ∈ canonicalBetTypes then ∅
    else {"Invalid bet type: " ++ t}

/-- Score check of the classifier: float conversion, then range. -/
def reviewScoreReasons (b : BetEntry) : Finset String :=
  match b.score with
  | none => {"Missing score"}
  | some raw =>
    match parseFloat? raw with
    | none => {"Invalid score format: " ++ raw}
    | some q =>
      if validScoreRange.1 ≤ q ∧ q ≤ validScoreRange.2 then ∅
      else {scoreRangeReasonStr q}

/-- Bet line format check of the classifier. -/
def reviewBetLineReasons (b : BetEntry) : Finset String :=
  match b.bet_line with
  | none => {"Missing bet line"}
  | some s =>
    if betLineFormatOk s then ∅
    else {"Invalid bet line format: " ++ s}

/-- Odds check of the classifier: the odds column already holds a nullable
integer at this point, so only the range can fail. -/
def reviewOddsReasons (b : BetEntry) : Finset String :=
  match b.odds with
  | none => {"Missing odds"}
  | some n =>
    if validOddsRange.1 ≤ n ∧ n ≤ validOddsRange.2 then ∅
    else {oddsRangeReasonStr n}

/-- Date check of the classifier. -/
def reviewDateReasons (b : BetEntry) : Finset String :=
  match b.date with
  | none => {"Missing date"}
  | some s =>
    if dateOkISO s then ∅
    else {"Invalid date format: " ++ s}

/-- Embeds image_processor._bet_needs_review: the union of the six
independent field checks, with the flag true exactly when some reason was
collected. -/
def betNeedsReview (playerIds : List (String × ℕ)) (b : BetEntry) : Bool × Finset String :=
  let reasons :=
    reviewPlayerReasons playerIds b ∪ reviewBetTypeReasons b ∪
    reviewScoreReasons b ∪ reviewBetLineReasons b ∪
    reviewOddsReasons b ∪ reviewDateReasons b
  (decide (reasons ≠ ∅), reasons)

/-- Embeds image_processor._image_needs_review (the later, set-based
definition, which shadows the earlier one): reasons of flagged bets are
accumulated into one set and the image flag is that this set is nonempty. -/
def imageNeedsReview (playerIds : List (String × ℕ)) (bets : List BetEntry) :
    Bool × Finset String :=
  let allReasons := bets.foldl
    (fun acc b =>
      let r := betNeedsReview playerIds b
      if r.1 then acc ∪ r.2 else acc) ∅
  (decide (allReasons ≠ ∅), allReasons)

/-! Persistence of extracted candidates (image_processor._save_to_database,
image_processor._get_existing_data) and the raw_ocr_bets row shape. -/

/-- Row of the raw_ocr_bets table, restricted to the columns the claims are
about; the diagnostic text columns and the created timestamp are omitted. -/
structure RawRow where
  id : ℕ
  player_id : Option ℕ
  bet_type : Option String
  score : Option ℚ
  date : Option String
  bet_line : Option String
  odds : Option ℤ
  image_source : String
  needs_review : Bool
  is_processed : Bool
  is_voided : Bool
deriving DecidableEq, Repr

/-- Resolution of the player id at save time: a present nonempty name is
looked up in the cached player id dictionary. -/
def savePid (playerIds : List (String × ℕ)) (b : BetEntry) : Option ℕ :=
  b.player.bind (fun p => if p = "" then none else playerIds.lookup p)

/-- Embeds one iteration of the insert loop of _save_to_database: the bet
entry becomes a row carrying the shared per-image review flag; the float
conversion of a present but unparsable score raises and the per-row handler
skips that row.  Autoincrement ids and the duplicate-ignoring insert are
abstracted away (the inserted id is zero). -/
def saveBetRow (playerIds : List (String × ℕ)) (flag : Bool) (img : String)
    (b : BetEntry) : Option RawRow :=
  match b.score with
  | some s =>
    match parseFloat? s with
    | none => none
    | some q => some ⟨0, savePid playerIds b, b.bet_type, some q, b.date,
        b.bet_line, b.odds, img, flag, false, false⟩
  | none => some ⟨0, savePid playerIds b, b.bet_type, none, b.date,
      b.bet_line, b.odds, img, flag, false, false⟩

/-- Embeds _save_to_database for one image group: the review flag is computed
once per image and every inserted row carries it. -/
def saveToDatabase (playerIds : List (String × ℕ)) (img : String)
    (bets : List BetEntry) : List RawRow :=
  let flag := (imageNeedsReview playerIds bets).1
  bets.filterMap (saveBetRow playerIds flag img)

/-- Embeds image_processor._get_existing_data: when the image has rows that
do not need review they are returned and the table is untouched, otherwise
every row of the image is deleted and nothing is returned. -/
def getExistingData (db : List RawRow) (img : String) :
    Option (List RawRow) × List RawRow :=
  let existing := db.filter (fun r => r.image_source = img ∧ r.needs_review = false)
  if existing.isEmpty then (none, db.filter (fun r => r.image_source ≠ img))
  else (some existing, db)

/-! Arity reconciliation inside image_processor._extract_bet_data. -/

/-- Output of the arity reconciliation step: the four per-wager field lists
and the two diagnostic lists. -/
structure ReconOut where
  scores : List (Option String)
  lines : List (Option String)
  odds : List (Option String)
  players : List (Option String)
  readScorePatterns : List (Option (String × String × String))
  readPlayers : List (Option String)
deriving DecidableEq, Repr

/-- Pads a list with missing values up to the target length, keeping the
existing prefix. -/
def padNA {α : Type} (l : List α) (m : ℕ) : List (Option α) :=
  l.map some ++ List.replicate (m - l.length) none

/-- Embeds the arity reconciliation of _extract_bet_data: a field list whose
length differs from the maximum is replaced by missing values, while the two
diagnostic lists are padded at the end. -/
def reconcileArities (scores lines odds playersInText : List String)
    (scoreLines : List (String × String × String)) : ReconOut :=
  let maxLength := max (max playersInText.length lines.length)
    (max scores.length odds.length)
  { scores := if scores.length = maxLength then scores.map some
      else List.replicate maxLength none
    lines := if lines.length = maxLength then lines.map some
      else List.replicate maxLength none
    odds := if odds.length = maxLength then odds.map some
      else List.replicate maxLength none
    players := if playersInText.length = maxLength then playersInText.map some
      else List.replicate maxLength none
    readScorePatterns := if scoreLines.length = maxLength then scoreLines.map some
      else padNA scoreLines maxLength
    readPlayers := if playersInText.length = maxLength then playersInText.map some
      else padNA playersInText maxLength }

/-! Field normalization (image_processor.clean_data) and the surrounding
error handling of image_processor.process_image. -/

/-- Record of one extracted wager before cleaning, with missing markers for
fields the OCR pass did not resolve. -/
structure RawExtract where
  date : Option String
  bet_type : Option String
  bet_line : Option String
  score : Option String
  odds : Option String
  player : Option String
deriving DecidableEq, Repr

/-- Record of one wager after clean_data: odds became a nullable integer,
the other fields are still strings. -/
structure CleanedEntry where
  date : Option String
  bet_type : Option String
  bet_line : Option String
  score : Option String
  odds : Option ℤ
  player : Option String
deriving DecidableEq, Repr

/-- Removal of every space character, the whitespace cleanup of clean_data. -/
def removeSpaces (s : String) : String :=
  String.mk (s.data.filter (fun c => c ≠ ' '))

/-- Leading character correction of the odds: a misread leading seven, four,
tilde or double quote becomes a minus sign. -/
def fixOddsLeading (cs : List Char) : List Char :=
  match cs with
  | [] => []
  | c :: rest =>
    if c = '7' ∨ c = '4' ∨ c = '~' ∨ c = '"' then '-' :: rest else c :: rest

/-- Non-leading dash correction of the odds: every dash after the first
character becomes a four. -/
def fixOddsNonLeadingDashes (cs : List Char) : List Char :=
  match cs with
  | [] => []
  | c :: rest => c :: rest.map (fun x => if x = '-' then '4' else x)

/-- Odds conversion of clean_data: the two OCR corrections followed by the
nullable integer conversion, which raises when the string is not an
integer literal. -/
def cleanOdds (s : String) : Except String ℤ :=
  let cs := fixOddsNonLeadingDashes (fixOddsLeading (removeSpaces s).data)
  match parseInt? (String.mk cs) with
  | some n => .ok n
  | none => .error "ValueError: cannot convert to Int64"

/-- Bet line correction of clean_data: a leading zero becomes the letter o. -/
def fixBetLine (s : String) : String :=
  match s.data with
  | '0' :: rest => String.mk ('o' :: rest)
  | cs => String.mk cs

/-- Score cleanup of clean_data: the Python slice dropping the first and the
last character, removing the plus sign and the percent sign. -/
def stripScore (s : String) : String :=
  String.mk ((s.data.drop 1).dropLast)

/-- Two-digit zero padding for dates. -/
def pad2 (n : ℕ) : String := if n < 10 then "0" ++ toString n else toString n

/-- Models the pandas strict-format datetime conversion of a month/day token
joined with the processing year, producing the canonical year-month-day
string; an ill-formed token or invalid calendar date raises. -/
def toDatetimeMD (year : ℕ) (s : String) : Except String String :=
  match splitOnChar '/' s.data with
  | [ms, ds] =>
    if ms.isEmpty ∨ ¬ms.all Char.isDigit ∨ 2 < ms.length then
      .error "ValueError: time data does not match format"
    else if ds.isEmpty ∨ ¬ds.all Char.isDigit ∨ 2 < ds.length then
      .error "ValueError: time data does not match format"
    else
      let m := digitsToNat ms
      let d := digitsToNat ds
      if validYMD year m d then .ok (toString year ++ "-" ++ pad2 m ++ "-" ++ pad2 d)
      else .error "ValueError: time data does not match format"
  | _ => .error "ValueError: time data does not match format"

/-- Embeds clean_data for a single record: spaces are removed from score,
odds and bet line, the odds corrections and integer conversion run, the bet
line and score are fixed up, and the date is converted; missing fields are
skipped; a failing conversion raises out of clean_data. -/
def cleanEntry (year : ℕ) (r : RawExtract) : Except String CleanedEntry := do
  let score1 := r.score.map removeSpaces
  let odds1 := r.odds.map removeSpaces
  let line1 := r.bet_line.map removeSpaces
  let odds2 ← match odds1 with
    | none => pure none
    | some s => do pure (some (← cleanOdds s))
  let line2 := line1.map fixBetLine
  let score2 := score1.map stripScore
  let date2 ← match r.date with
    | none => pure none
    | some s => do pure (some (← toDatetimeMD year s))
  pure ⟨date2, r.bet_type, line2, score2, odds2, r.player⟩

/-- Embeds clean_data over the whole extracted frame: the column operations
raise as soon as any cell fails to convert, so the result is all cleaned
records or a single failure. -/
def cleanData (year : ℕ) : List RawExtract → Except String (List CleanedEntry)
  | [] => .ok []
  | r :: rest => do
    let c ← cleanEntry year r
    let cs ← cleanData year rest
    pure (c :: cs)

/-- Embeds the try block of process_image around cleaning: any exception is
caught and the whole image yields nothing. -/
def processImageClean (year : ℕ) (records : List RawExtract) : Option (List CleanedEntry) :=
  match cleanData year records with
  | .ok rs => some rs
  | .error _ => none

/-! Review reconciliation import (review_handler.update_reviewed_entries). -/

/-- Row of the edited review table: the candidate id and the edited fields,
in the shape the classifier inspects. -/
structure CsvRow where
  id : ℕ
  fields : BetEntry
deriving DecidableEq, Repr

/-- Embeds review_handler.bet_needs_review, the near-duplicate classifier
used on imported rows: the player id is looked up in the players table and a
name with no row there raises out of the check (the fetched row is absent
and its subscript fails); a fetched id of zero is falsy and yields the
not-found reason. -/
def betNeedsReviewCsv (players : List (String × ℕ)) (bet : CsvRow) :
    Except String (Bool × Finset String) := do
  let playerReasons : Finset String ←
    match bet.fields.player with
    | none => pure {"Missing player name"}
    | some p =>
      if p = "" then pure {"Missing player name"}
      else
        match players.lookup p with
        | none => .error "TypeError: NoneType is not subscriptable"
        | some pid =>
          if pid = 0 then pure {"Player not found: " ++ p} else pure ∅
  let reasons := playerReasons ∪ reviewBetTypeReasons bet.fields ∪
    reviewScoreReasons bet.fields ∪ reviewBetLineReasons bet.fields ∪
    reviewOddsReasons bet.fields ∪ reviewDateReasons bet.fields
  pure (decide (reasons ≠ ∅), reasons)

/-- Embeds one iteration of the import loop of update_reviewed_entries: the
classifier runs on the edited row, the player id is fetched, and only a row
that now passes is updated (fields committed, review flag cleared); any
raised error leaves the table unchanged and the loop continues. -/
def applyCsvRow (players : List (String × ℕ)) (db : List RawRow) (bet : CsvRow) :
    List RawRow :=
  match betNeedsReviewCsv players bet with
  | .error _ => db
  | .ok (needsReview, _) =>
    match bet.fields.player.bind (fun p => players.lookup p) with
    | none => db
    | some pid =>
      if needsReview then db
      else
        db.map (fun r =>
          if r.id = bet.id then
            { r with
              needs_review := false
              player_id := some pid
              bet_type := bet.fields.bet_type
              score := bet.fields.score.bind parseFloat?
              bet_line := bet.fields.bet_line
              odds := bet.fields.odds }
          else r)

/-- Embeds review_handler.update_reviewed_entries: an empty imported table
returns early with no change at all; otherwise ids currently flagged and not
voided that are absent from the imported table are voided, then each imported
row is re-classified and merged. -/
def updateReviewedEntries (players : List (String × ℕ)) (db : List RawRow)
    (csv : List CsvRow) : List RawRow :=
  if csv.isEmpty then db else
  let csvIds : List ℕ := csv.map (·.id)
  let flaggedIds : List ℕ :=
    (db.filter (fun r => r.needs_review ∧ ¬r.is_voided)).map (·.id)
  let deletedIds : List ℕ := flaggedIds.filter (fun i => i ∉ csvIds)
  let db1 := db.map (fun r =>
    if r.id ∈ deletedIds then { r with is_voided := true } else r)
  csv.foldl (applyCsvRow players) db1

/-! Settlement run (process_bets.process_new_bets and its helpers), with the
sqlite connection modelled as a committed database state plus the list of
pending writes of the open transaction.  Statement blocks used as context
managers commit the whole pending transaction on exit. -/

/-- Row of the game_stats cache; the stat columns are kept as the stats
dictionary. -/
structure GameStatRow where
  player_id : ℕ
  date : String
  stats : List (String × ℚ)
deriving DecidableEq, Repr

/-- Row of bet_results; surrogate ids are omitted. -/
structure BetResultRow where
  raw_bet_id : ℕ
  player_id : ℕ
  bet_type : String
  result : String
  result_delta : ℚ
  score_range : String
  over_under : String
  stat_result : ℚ
  line_value : ℚ
deriving DecidableEq, Repr

/-- Row of unplayed_bets. -/
structure UnplayedRow where
  raw_bet_id : ℕ
  player_id : ℕ
  date : String
deriving DecidableEq, Repr

/-- The database tables touched by a settlement run. -/
structure DBState where
  rawBets : List RawRow
  gameStats : List GameStatRow
  betResults : List BetResultRow
  unplayedBets : List UnplayedRow
deriving DecidableEq, Repr

/-- One write of the settlement run. -/
inductive DBWrite
  | gameStat (row : GameStatRow)
  | betResult (row : BetResultRow)
  | unplayed (row : UnplayedRow)
  | markProcessed (id : ℕ)
deriving DecidableEq, Repr

/-- Application of one write to the database state.  The unplayed insert is
the ignore-on-duplicate insert of the source; the processed mark updates the
flag of the matching raw bet row. -/
def applyWrite (d : DBState) (w : DBWrite) : DBState :=
  match w with
  | .gameStat r => { d with gameStats := d.gameStats ++ [r] }
  | .betResult r => { d with betResults := d.betResults ++ [r] }
  | .unplayed r =>
    if d.unplayedBets.any (fun u => u.raw_bet_id = r.raw_bet_id) then d
    else { d with unplayedBets := d.unplayedBets ++ [r] }
  | .markProcessed i =>
    { d with rawBets := d.rawBets.map (fun r =>
        if r.id = i then { r with is_processed := true } else r) }

/-- The sqlite connection: committed state plus the pending writes of the
open transaction. -/
structure Conn where
  committed : DBState
  pending : List DBWrite
deriving DecidableEq, Repr

/-- Queues a write on the open transaction. -/
def Conn.exec (c : Conn) (w : DBWrite) : Conn :=
  { c with pending := c.pending ++ [w] }

/-- Commits the open transaction: every pending write is applied. -/
def Conn.commit (c : Conn) : Conn :=
  ⟨c.pending.foldl applyWrite c.committed, []⟩

/-- Rolls back the open transaction: pending writes are discarded. -/
def Conn.rollback (c : Conn) : Conn :=
  { c with pending := [] }

/-- Outcome of process_bets._get_player_game_stats for one bet, abstracted as
an oracle: cached stats or a known unplayed marker from the database, or the
external call with its possible results and failures. -/
inductive FetchResult
  | cachedStats (gs : List (String × ℚ))
  | knownUnplayed
  | apiStats (gs : List (String × ℚ))
  | apiNoGame
  | apiTransportError
  | apiUnexpectedError
deriving DecidableEq, Repr

/-- Builds the bet_results row from a computed outcome. -/
def mkBetResultRow (bet : OcrBet) (out : CalcOut) (range : String) : BetResultRow :=
  ⟨bet.id, bet.player_id, bet.bet_type, out.result, out.result_delta, range,
    out.over_under, out.stat_result, out.line_value⟩

/-- Embeds process_bets.insert_into_bet_results: results and score range are
computed first (either may raise, before the insert block opens), then the
insert runs inside a connection block whose successful exit commits the whole
pending transaction. -/
def insertBetResults (c : Conn) (bet : OcrBet) (gs : List (String × ℚ)) :
    Except String Conn := do
  let out ← calcResults bet gs
  let range ← calcScoreRange bet.score
  pure ((c.exec (.betResult (mkBetResultRow bet out range))).commit)

/-- Embeds the no-stats branch of the processing loop: the unplayed insert in
its committing connection block, then the processed mark, which stays pending. -/
def settleUnplayed (c : Conn) (bet : OcrBet) : Conn :=
  ((c.exec (.unplayed ⟨bet.id, bet.player_id, bet.date⟩)).commit).exec
    (.markProcessed bet.id)

/-- Embeds the loop of process_bets._process_unprocessed_bets.  A transport
failure of the external service calls quit, which raises SystemExit past both
exception handlers: the process dies, pending writes are lost, and the
committed state at that point is final (the error value).  Every other
per-bet exception is caught and the loop continues. -/
def processLoop (fetch : OcrBet → FetchResult) :
    Conn → List OcrBet → Except DBState Conn
  | c, [] => .ok c
  | c, bet :: rest =>
    match fetch bet with
    | .apiTransportError => .error c.committed
    | .apiUnexpectedError => processLoop fetch c rest
    | .knownUnplayed => processLoop fetch (settleUnplayed c bet) rest
    | .apiNoGame => processLoop fetch (settleUnplayed c bet) rest
    | .cachedStats gs =>
      match insertBetResults c bet gs with
      | .error _ => processLoop fetch c rest
      | .ok c2 => processLoop fetch (c2.exec (.markProcessed bet.id)) rest
    | .apiStats gs =>
      let c1 := (c.exec (.gameStat ⟨bet.player_id, bet.date, gs⟩)).commit
      match insertBetResults c1 bet gs with
      | .error _ => processLoop fetch c1 rest
      | .ok c2 => processLoop fetch (c2.exec (.markProcessed bet.id)) rest

/-- Outcome of a settlement run: a successful run, a run aborted by the
outer exception handler (rolled back and reported), or a process exit from
the transport-error quit. -/
inductive RunResult
  | success (db : DBState)
  | failed (db : DBState)
  | exited (db : DBState)
deriving DecidableEq, Repr

/-- Final database state of a run outcome. -/
def RunResult.db : RunResult → DBState
  | .success d => d
  | .failed d => d
  | .exited d => d

/-- Embeds process_bets.process_new_bets.  The preFail flag stands for an
unexpected exception escaping before the loop (the only exceptions that reach
the outer handler, since the loop catches per-bet exceptions): the handler
rolls back the pending transaction and returns failure.  Otherwise the loop
runs and a completed run commits and returns success. -/
def processNewBets (fetch : OcrBet → FetchResult) (bets : List OcrBet)
    (init : DBState) (preFail : Bool) : RunResult :=
  if preFail then .failed ((Conn.rollback ⟨init, []⟩).committed)
  else
    match processLoop fetch ⟨init, []⟩ bets with
    | .error db => .exited db
    | .ok c => .success c.commit.committed

/-- Total value of the loss branch of the delta computation; lossDelta always
succeeds with this value. -/
def lossDeltaVal (odds : ℚ) : ℚ :=
  if 0 < odds then -(roundHalfEven (100 / (odds / 100)) : ℚ) else odds

/-- A database state whose persisted results contain no push outcome. -/
def PushFreeDB (d : DBState) : Prop :=
  ∀ r ∈ d.betResults, r.result ≠ "Push"

/-- A write list containing no push result insert. -/
def PushFreeWrites (ws : List DBWrite) : Prop :=
  ∀ row : BetResultRow, DBWrite.betResult row ∈ ws → row.result ≠ "Push"

/-- A connection whose committed state and pending writes are push free. -/
def PushFreeConn (c : Conn) : Prop :=
  PushFreeDB c.committed ∧ PushFreeWrites c.pending

/-- Validity of the player field as the classifier checks it: a nonempty name
present in the cached player id dictionary. -/
def PlayerValid (pids : List (String × ℕ)) (b : BetEntry) : Prop :=
  ∃ p, b.player = some p ∧ p ≠ "" ∧ (pids.lookup p).isSome = true

/-- Validity of the bet type field: one of the canonical settlement
categories. -/
def BetTypeValid (b : BetEntry) : Prop :=
  ∃ t, b.bet_type = some t ∧ t ∈ canonicalBetTypes

/-- Validity of the score field: parses as a float inside the configured
range. -/
def ScoreValid (b : BetEntry) : Prop :=
  ∃ s q, b.score = some s ∧ parseFloat? s = some q ∧
    validScoreRange.1 ≤ q ∧ q ≤ validScoreRange.2

/-- Validity of the bet line field: full match of the over/under format. -/
def BetLineValid (b : BetEntry) : Prop :=
  ∃ s, b.bet_line = some s ∧ betLineFormatOk s = true

/-- Validity of the odds field: present and inside the configured range. -/
def OddsValid (b : BetEntry) : Prop :=
  ∃ n, b.odds = some n ∧ validOddsRange.1 ≤ n ∧ n ≤ validOddsRange.2

/-- Validity of the date field: present and parseable as a calendar date. -/
def DateValid (b : BetEntry) : Prop :=
  ∃ s, b.date = some s ∧ dateOkISO s = true

/-- Fixture: a one-player roster for concrete classifier evaluations. -/
def exampleRoster : List (String × ℕ) := [("LeBron James", 23)]

/-- Fixture: a candidate record that is valid in every field except the score,
which parses to fifteen, below the configured lower bound. -/
def exampleLowScoreBet : BetEntry :=
  ⟨some "LeBron James", some "points", some "15.0", some "o21.5",
    some (-150), some "2025-01-15"⟩

/-!  Theorems.  General lemmas about the embedded functions first, then one
theorem per claim with its witness or counterexample. -/

theorem exceptBind_ok {ε α β : Type} (a : α) (f : α → Except ε β) :
    (Except.ok a : Except ε α) >>= f = f a := rfl

theorem exceptBind_error {ε α β : Type} (e : ε) (f : α → Except ε β) :
    (Except.error e : Except ε α) >>= f = .error e := rfl

theorem exceptPure_eq_ok {ε α : Type} (a : α) :
    (pure a : Except ε α) = Except.ok a := rfl

theorem lossDelta_eq_ok (odds : ℚ) : lossDelta odds = .ok (lossDeltaVal odds) := by
  unfold lossDelta lossDeltaVal
  by_cases h : 0 < odds
  · have hne : odds / 100 ≠ 0 := by
      simp [div_eq_zero_iff]
      exact ne_of_gt h
    simp [h, pydiv, hne, exceptBind_ok, exceptPure_eq_ok]
  · simp [h, exceptPure_eq_ok]

theorem calcResults_over_win (bet : OcrBet) (gs : List (String × ℚ)) (sv lv : ℚ)
    (h1 : gs.lookup bet.bet_type = some sv)
    (h2 : parseFloat? (strTail bet.bet_line) = some lv)
    (h3 : strHead? bet.bet_line 'o' = true)
    (h4 : lv < sv) :
    calcResults bet gs = .ok ⟨"Win", 100, sv, lv, "Over"⟩ := by
  simp [calcResults, h1, h2, h3, exceptBind_ok, exceptPure_eq_ok, h4,
    not_lt.mpr (le_of_lt h4)]

theorem calcResults_over_loss (bet : OcrBet) (gs : List (String × ℚ)) (sv lv : ℚ)
    (h1 : gs.lookup bet.bet_type = some sv)
    (h2 : parseFloat? (strTail bet.bet_line) = some lv)
    (h3 : strHead? bet.bet_line 'o' = true)
    (h4 : sv < lv) :
    calcResults bet gs = .ok ⟨"Loss", lossDeltaVal bet.odds, sv, lv, "Over"⟩ := by
  simp [calcResults, h1, h2, h3, exceptBind_ok, exceptPure_eq_ok, h4,
    not_lt.mpr (le_of_lt h4), lossDelta_eq_ok]

theorem calcResults_over_push (bet : OcrBet) (gs : List (String × ℚ)) (sv lv : ℚ)
    (h1 : gs.lookup bet.bet_type = some sv)
    (h2 : parseFloat? (strTail bet.bet_line) = some lv)
    (h3 : strHead? bet.bet_line 'o' = true)
    (h4 : sv = lv) :
    calcResults bet gs = .error "Bet resulted in a push" := by
  simp [calcResults, h1, h2, h3, exceptBind_ok, exceptPure_eq_ok, h4]

theorem calcResults_under_win (bet : OcrBet) (gs : List (String × ℚ)) (sv lv : ℚ)
    (h1 : gs.lookup bet.bet_type = some sv)
    (h2 : parseFloat? (strTail bet.bet_line) = some lv)
    (h3 : strHead? bet.bet_line 'o' = false)
    (h3u : strHead? bet.bet_line 'u' = true)
    (h4 : sv < lv) :
    calcResults bet gs = .ok ⟨"Win", 100, sv, lv, "Under"⟩ := by
  simp [calcResults, h1, h2, h3, h3u, exceptBind_ok, exceptPure_eq_ok, h4,
    not_lt.mpr (le_of_lt h4)]

theorem calcResults_under_loss (bet : OcrBet) (gs : List (String × ℚ)) (sv lv : ℚ)
    (h1 : gs.lookup bet.bet_type = some sv)
    (h2 : parseFloat? (strTail bet.bet_line) = some lv)
    (h3 : strHead? bet.bet_line 'o' = false)
    (h3u : strHead? bet.bet_line 'u' = true)
    (h4 : lv < sv) :
    calcResults bet gs = .ok ⟨"Loss", lossDeltaVal bet.odds, sv, lv, "Under"⟩ := by
  simp [calcResults, h1, h2, h3, h3u, exceptBind_ok, exceptPure_eq_ok, h4,
    not_lt.mpr (le_of_lt h4), lossDelta_eq_ok]

theorem calcResults_under_push (bet : OcrBet) (gs : List (String × ℚ)) (sv lv : ℚ)
    (h1 : gs.lookup bet.bet_type = some sv)
    (h2 : parseFloat? (strTail bet.bet_line) = some lv)
    (h3 : strHead? bet.bet_line 'o' = false)
    (h3u : strHead? bet.bet_line 'u' = true)
    (h4 : sv = lv) :
    calcResults bet gs = .error "Bet resulted in a push" := by
  simp [calcResults, h1, h2, h3, h3u, exceptBind_ok, exceptPure_eq_ok, h4]

theorem strHead_u_not_o {s : String} (h : strHead? s 'u' = true) :
    strHead? s 'o' = false := by
  unfold strHead? at h ⊢
  cases hd : s.data with
  | nil => rw [hd] at h
  | cons c cs =>
    rw [hd] at h
    simp at h
    simp [h]

/-- C1: for a candidate settled against a game-stat record holding value sv at
the candidate's bet type, with lv the numeric part of the bet line: a line
starting with the letter o wins strictly above the line and loses strictly
below it, a line starting with the letter u wins strictly below and loses
strictly above; a win pays one hundred; a loss pays the odds themselves when
the odds are not positive and the negated rounded quotient otherwise; in
particular odds of minus one hundred fifty lose one hundred fifty and odds of
one hundred twenty lose eighty-three. -/
theorem C1_settlement_outcome :
    (∀ (bet : OcrBet) (gs : List (String × ℚ)) (sv lv : ℚ),
      gs.lookup bet.bet_type = some sv →
      parseFloat? (strTail bet.bet_line) = some lv →
      ((strHead? bet.bet_line 'o' = true →
        (lv < sv → calcResults bet gs = .ok ⟨"Win", 100, sv, lv, "Over"⟩) ∧
        (sv < lv → calcResults bet gs = .ok ⟨"Loss", lossDeltaVal bet.odds, sv, lv, "Over"⟩)) ∧
      (strHead? bet.bet_line 'u' = true →
        (sv < lv → calcResults bet gs = .ok ⟨"Win", 100, sv, lv, "Under"⟩) ∧
        (lv < sv → calcResults bet gs = .ok ⟨"Loss", lossDeltaVal bet.odds, sv, lv, "Under"⟩)))) ∧
    (∀ odds : ℚ, odds ≤ 0 → lossDeltaVal odds = odds) ∧
    (∀ odds : ℚ, 0 < odds →
      lossDeltaVal odds = -(roundHalfEven (100 / (odds / 100)) : ℚ)) ∧
    lossDeltaVal (-150) = -150 ∧
    lossDeltaVal 120 = -83 := by
  refine ⟨?_, ?_, ?_, ?_, ?_⟩
  · intro bet gs sv lv h1 h2
    exact ⟨fun h3 => ⟨fun h4 => calcResults_over_win bet gs sv lv h1 h2 h3 h4,
                      fun h4 => calcResults_over_loss bet gs sv lv h1 h2 h3 h4⟩,
           fun h3u => ⟨fun h4 => calcResults_under_win bet gs sv lv h1 h2
                         (strHead_u_not_o h3u) h3u h4,
                       fun h4 => calcResults_under_loss bet gs sv lv h1 h2
                         (strHead_u_not_o h3u) h3u h4⟩⟩
  · intro odds h
    simp [lossDeltaVal, not_lt.mpr h]
  · intro odds h
    simp [lossDeltaVal, h]
  · norm_num [lossDeltaVal]
  · norm_num [lossDeltaVal, roundHalfEven, Int.fract]

/-- Witness for C1 at a concrete losing candidate with positive odds of one
hundred twenty: the settlement produces a loss of eighty-three. -/
theorem C1_settlement_outcome_witness :
    calcResults ⟨2, 10, "points", 30, "2025-01-15", "o21.5", 120⟩ [("points", 18)]
      = .ok ⟨"Loss", lossDeltaVal 120, 18, 43/2, "Over"⟩ ∧ lossDeltaVal 120 = -83 := by
  have hparse : parseFloat? (strTail "o21.5") = some ((43 : ℚ)/2) := by
    have h : parseDecimalList? (strTail "o21.5").data = some ⟨false, 21, 5, 1⟩ := by decide
    simp [parseFloat?, h, DecimalLit.toRat]
    norm_num
  refine ⟨((C1_settlement_outcome.1 ⟨2, 10, "points", 30, "2025-01-15", "o21.5", 120⟩
    [("points", 18)] 18 (43/2) (by decide) hparse).1 (by decide)).2 (by norm_num),
    C1_settlement_outcome.2.2.2.2⟩

/-- Counterexample for C1 as stated: the claim prescribes the division-based
formula for every non-negative odds value on a loss, but at odds of zero the
code never evaluates the division and returns the odds value zero, while the
claimed formula has no value because the division raises. -/
theorem C1_counterexample :
    calcResults ⟨7, 10, "points", 30, "2025-01-15", "o21.5", 0⟩ [("points", 18)]
      = .ok ⟨"Loss", 0, 18, 43/2, "Over"⟩ ∧
    lossDelta 0 = .ok 0 ∧
    claimLossDelta 0 = .error "ZeroDivisionError: float division by zero" := by
  refine ⟨?_, ?_, ?_⟩
  · have h : parseDecimalList? (strTail "o21.5").data = some ⟨false, 21, 5, 1⟩ := by decide
    have h2 : strHead? "o21.5" 'o' = true := by decide
    simp [calcResults, parseFloat?, h, h2, lossDelta, pydiv, DecimalLit.toRat,
      exceptBind_ok, exceptPure_eq_ok]
    norm_num
    rfl
  · norm_num [lossDelta, exceptPure_eq_ok]
  · norm_num [claimLossDelta, pydiv, exceptBind_error]

/-- C10: the loss-delta computation never fails, the division is guarded by
strict positivity of the odds, every non-positive odds value including zero
yields the odds value itself, and zero lies inside the configured odds
validation range. -/
theorem C10_division_guard :
    (∀ odds : ℚ, ∃ d : ℚ, lossDelta odds = .ok d) ∧
    (∀ odds : ℚ, odds ≤ 0 → lossDelta odds = .ok odds) ∧
    validOddsRange.1 ≤ 0 ∧ (0 : ℤ) ≤ validOddsRange.2 := by
  refine ⟨fun odds => ⟨lossDeltaVal odds, lossDelta_eq_ok odds⟩, fun odds h => ?_,
    by decide, by decide⟩
  simp [lossDelta, not_lt.mpr h, exceptPure_eq_ok]

/-- Witness for C10 at odds zero: the loss delta is zero and no division by
zero occurs. -/
theorem C10_division_guard_witness : lossDelta 0 = .ok 0 :=
  C10_division_guard.2.1 0 le_rfl

theorem calcResults_lookup_none (bet : OcrBet) (gs : List (String × ℚ))
    (h1 : gs.lookup bet.bet_type = none) :
    calcResults bet gs = .error "KeyError: bet_type not in game_stats" := by
  simp [calcResults, h1, exceptBind_error]

theorem calcResults_parse_none (bet : OcrBet) (gs : List (String × ℚ)) (sv : ℚ)
    (h1 : gs.lookup bet.bet_type = some sv)
    (h2 : parseFloat? (strTail bet.bet_line) = none) :
    calcResults bet gs = .error "ValueError: could not convert string to float" := by
  simp [calcResults, h1, h2, exceptBind_ok, exceptBind_error]

theorem calcResults_invalid_line (bet : OcrBet) (gs : List (String × ℚ)) (sv lv : ℚ)
    (h1 : gs.lookup bet.bet_type = some sv)
    (h2 : parseFloat? (strTail bet.bet_line) = some lv)
    (h3 : strHead? bet.bet_line 'o' = false)
    (h3u : strHead? bet.bet_line 'u' = false) :
    calcResults bet gs = .error "ValueError: invalid bet line format" := by
  simp [calcResults, h1, h2, h3, h3u, exceptBind_ok, exceptBind_error]

theorem calcResults_ok_result (bet : OcrBet) (gs : List (String × ℚ)) (out : CalcOut)
    (h : calcResults bet gs = .ok out) :
    out.result = "Win" ∨ out.result = "Loss" := by
  cases hlk : gs.lookup bet.bet_type with
  | none => rw [calcResults_lookup_none bet gs hlk] at h; exact absurd h (by simp)
  | some sv =>
  cases hpf : parseFloat? (strTail bet.bet_line) with
  | none => rw [calcResults_parse_none bet gs sv hlk hpf] at h; exact absurd h (by simp)
  | some lv =>
  by_cases h3 : strHead? bet.bet_line 'o' = true
  · rcases lt_trichotomy sv lv with h4 | h4 | h4
    · rw [calcResults_over_loss bet gs sv lv hlk hpf h3 h4] at h
      right
      cases h
      rfl
    · rw [calcResults_over_push bet gs sv lv hlk hpf h3 h4] at h
      exact absurd h (by simp)
    · rw [calcResults_over_win bet gs sv lv hlk hpf h3 h4] at h
      left
      cases h
      rfl
  · by_cases h3u : strHead? bet.bet_line 'u' = true
    · rcases lt_trichotomy sv lv with h4 | h4 | h4
      · rw [calcResults_under_win bet gs sv lv hlk hpf (by simpa using h3) h3u h4] at h
        left
        cases h
        rfl
      · rw [calcResults_under_push bet gs sv lv hlk hpf (by simpa using h3) h3u h4] at h
        exact absurd h (by simp)
      · rw [calcResults_under_loss bet gs sv lv hlk hpf (by simpa using h3) h3u h4] at h
        right
        cases h
        rfl
    · rw [calcResults_invalid_line bet gs sv lv hlk hpf (by simpa using h3)
        (by simpa using h3u)] at h
      exact absurd h (by simp)



theorem applyWrite_betResults (d : DBState) (w : DBWrite) :
    (applyWrite d w).betResults = d.betResults ++
      (match w with | .betResult r => [r] | _ => []) := by
  cases w with
  | gameStat r => simp [applyWrite]
  | betResult r => simp [applyWrite]
  | unplayed r =>
    by_cases hcase : d.unplayedBets.any (fun u => u.raw_bet_id = r.raw_bet_id) <;>
      simp [applyWrite, hcase]
  | markProcessed i => simp [applyWrite]

theorem pushFree_applyWrite {d : DBState} {w : DBWrite}
    (hd : PushFreeDB d)
    (hw : ∀ row : BetResultRow, w = .betResult row → row.result ≠ "Push") :
    PushFreeDB (applyWrite d w) := by
  intro x hx
  rw [applyWrite_betResults] at hx
  rcases List.mem_append.mp hx with h | h
  · exact hd x h
  · cases w <;> simp at h
    subst h
    exact hw _ rfl

theorem pushFree_applyWrites {ws : List DBWrite} {d : DBState}
    (hd : PushFreeDB d) (hws : PushFreeWrites ws) :
    PushFreeDB (ws.foldl applyWrite d) := by
  induction ws generalizing d with
  | nil => simpa using hd
  | cons w ws ih =>
    simp only [List.foldl_cons]
    exact ih (pushFree_applyWrite hd (fun row hw => hws row (by simp [hw])))
      (fun row hrow => hws row (by simp [hrow]))

theorem pushFree_commit {c : Conn} (hc : PushFreeConn c) : PushFreeConn c.commit := by
  refine ⟨pushFree_applyWrites hc.1 hc.2, ?_⟩
  intro row hrow
  simp [Conn.commit] at hrow

theorem pushFree_exec {c : Conn} {w : DBWrite} (hc : PushFreeConn c)
    (hw : ∀ row : BetResultRow, w = .betResult row → row.result ≠ "Push") :
    PushFreeConn (c.exec w) := by
  refine ⟨hc.1, ?_⟩
  intro row hrow
  simp only [Conn.exec, List.mem_append, List.mem_singleton] at hrow
  rcases hrow with h | h
  · exact hc.2 row h
  · exact hw row h.symm

theorem pushFree_settleUnplayed {c : Conn} {bet : OcrBet} (hc : PushFreeConn c) :
    PushFreeConn (settleUnplayed c bet) := by
  unfold settleUnplayed
  exact pushFree_exec (pushFree_commit (pushFree_exec hc (by intro row h; cases h)))
    (by intro row h; cases h)

theorem pushFree_insertBetResults {c c2 : Conn} {bet : OcrBet} {gs : List (String × ℚ)}
    (hc : PushFreeConn c) (h : insertBetResults c bet gs = .ok c2) :
    PushFreeConn c2 := by
  unfold insertBetResults at h
  cases hr : calcResults bet gs with
  | error e => rw [hr, exceptBind_error] at h; exact absurd h (by simp)
  | ok out =>
  rw [hr, exceptBind_ok] at h
  cases hs : calcScoreRange bet.score with
  | error e => rw [hs, exceptBind_error] at h; exact absurd h (by simp)
  | ok range =>
  rw [hs, exceptBind_ok, exceptPure_eq_ok] at h
  cases h
  apply pushFree_commit
  apply pushFree_exec hc
  intro row hrow
  cases hrow
  have := calcResults_ok_result bet gs out hr
  rcases this with hres | hres <;> simp [mkBetResultRow, hres]

theorem pushFree_processLoop {fetch : OcrBet → FetchResult} :
    ∀ (bets : List OcrBet) (c : Conn), PushFreeConn c →
      (∀ db, processLoop fetch c bets = .error db → PushFreeDB db) ∧
      (∀ c2, processLoop fetch c bets = .ok c2 → PushFreeConn c2) := by
  intro bets
  induction bets with
  | nil =>
    intro c hc
    constructor
    · intro db h; cases h
    · intro c2 h; cases h; exact hc
  | cons bet rest ih =>
    intro c hc
    have hstep : ∀ res : Except DBState Conn,
        processLoop fetch c (bet :: rest) = res →
        (∀ db, res = .error db → PushFreeDB db) ∧
        (∀ c2, res = .ok c2 → PushFreeConn c2) := by
      intro res hres
      simp only [processLoop] at hres
      split at hres
      · -- apiTransportError
        subst hres
        constructor
        · intro db h; cases h; exact hc.1
        · intro c2 h; cases h
      · -- apiUnexpectedError
        subst hres
        exact ih c hc
      · -- knownUnplayed
        subst hres
        exact ih _ (pushFree_settleUnplayed hc)
      · -- apiNoGame
        subst hres
        exact ih _ (pushFree_settleUnplayed hc)
      · -- cachedStats
        next gs hf =>
        split at hres
        · next e hib =>
          subst hres
          exact ih c hc
        · next c2 hib =>
          subst hres
          exact ih _ (pushFree_exec (pushFree_insertBetResults hc hib)
            (by intro row hrow; cases hrow))
      · -- apiStats
        next gs hf =>
        split at hres
        · next e hib =>
          subst hres
          exact ih _ (pushFree_commit (pushFree_exec hc (by intro row hrow; cases hrow)))
        · next c2 hib =>
          subst hres
          exact ih _ (pushFree_exec (pushFree_insertBetResults
            (pushFree_commit (pushFree_exec hc (by intro row hrow; cases hrow))) hib)
            (by intro row hrow; cases hrow))
    exact hstep (processLoop fetch c (bet :: rest)) rfl



/-- C2: a candidate whose realized stat value exactly equals the numeric line
value makes the settlement computation raise the push error instead of
producing a result, and no settlement run outcome ever persists a bet result
row whose result is a push, whatever the oracle and the initial state. -/
theorem C2_push_rejected :
    (∀ (bet : OcrBet) (gs : List (String × ℚ)) (sv lv : ℚ),
      gs.lookup bet.bet_type = some sv →
      parseFloat? (strTail bet.bet_line) = some lv →
      (strHead? bet.bet_line 'o' = true ∨ strHead? bet.bet_line 'u' = true) →
      sv = lv →
      calcResults bet gs = .error "Bet resulted in a push") ∧
    (∀ (fetch : OcrBet → FetchResult) (bets : List OcrBet) (init : DBState)
       (preFail : Bool),
      PushFreeDB init →
      PushFreeDB (processNewBets fetch bets init preFail).db) := by
  constructor
  · intro bet gs sv lv h1 h2 h3 h4
    rcases h3 with h3 | h3u
    · exact calcResults_over_push bet gs sv lv h1 h2 h3 h4
    · exact calcResults_under_push bet gs sv lv h1 h2 (strHead_u_not_o h3u) h3u h4
  · intro fetch bets init preFail hinit
    unfold processNewBets
    by_cases hp : preFail
    · simpa [hp, Conn.rollback, RunResult.db] using hinit
    · simp only [hp, if_false, Bool.false_eq_true]
      cases hloop : processLoop fetch ⟨init, []⟩ bets with
      | error db =>
        simpa [RunResult.db] using
          (pushFree_processLoop bets ⟨init, []⟩ ⟨hinit, by intro row h; cases h⟩).1 db hloop
      | ok c =>
        simpa [RunResult.db] using
          (pushFree_commit ((pushFree_processLoop bets ⟨init, []⟩
            ⟨hinit, by intro row h; cases h⟩).2 c hloop)).1

/-- Witness for C2 at a concrete tie: a line of twenty-one and a half with a
realized value of twenty-one and a half raises the push error. -/
theorem C2_push_rejected_witness :
    calcResults ⟨3, 10, "points", 30, "2025-01-15", "o21.5", -150⟩ [("points", 43/2)]
      = .error "Bet resulted in a push" := by
  have hparse : parseFloat? (strTail "o21.5") = some ((43 : ℚ)/2) := by
    have h : parseDecimalList? (strTail "o21.5").data = some ⟨false, 21, 5, 1⟩ := by decide
    simp [parseFloat?, h, DecimalLit.toRat]
    norm_num
  exact C2_push_rejected.1 ⟨3, 10, "points", 30, "2025-01-15", "o21.5", -150⟩
    [("points", 43/2)] (43/2) (43/2) (by simp [List.lookup]) hparse
    (Or.inl (by decide)) rfl

theorem exec_committed (c : Conn) (w : DBWrite) : (c.exec w).committed = c.committed := rfl

theorem applyWrite_betResults_mono {d : DBState} {w : DBWrite} {r : BetResultRow}
    (h : r ∈ d.betResults) : r ∈ (applyWrite d w).betResults := by
  rw [applyWrite_betResults]
  exact List.mem_append_left _ h

theorem applyWrites_betResults_mono {ws : List DBWrite} {d : DBState} {r : BetResultRow}
    (h : r ∈ d.betResults) : r ∈ (ws.foldl applyWrite d).betResults := by
  induction ws generalizing d with
  | nil => simpa using h
  | cons w ws ih => exact ih (applyWrite_betResults_mono h)

theorem commit_committed_mono {c : Conn} {r : BetResultRow}
    (h : r ∈ c.committed.betResults) : r ∈ c.commit.committed.betResults :=
  applyWrites_betResults_mono h

theorem insertBetResults_committed_mono {c c2 : Conn} {bet : OcrBet}
    {gs : List (String × ℚ)} (hins : insertBetResults c bet gs = .ok c2)
    {r : BetResultRow} (h : r ∈ c.committed.betResults) :
    r ∈ c2.committed.betResults := by
  unfold insertBetResults at hins
  cases hr : calcResults bet gs with
  | error e => rw [hr, exceptBind_error] at hins; exact absurd hins (by simp)
  | ok out =>
  rw [hr, exceptBind_ok] at hins
  cases hs : calcScoreRange bet.score with
  | error e => rw [hs, exceptBind_error] at hins; exact absurd hins (by simp)
  | ok range =>
  rw [hs, exceptBind_ok, exceptPure_eq_ok] at hins
  cases hins
  exact commit_committed_mono h

theorem settleUnplayed_committed_mono {c : Conn} {bet : OcrBet} {r : BetResultRow}
    (h : r ∈ c.committed.betResults) :
    r ∈ (settleUnplayed c bet).committed.betResults := by
  unfold settleUnplayed
  rw [exec_committed]
  exact commit_committed_mono h

theorem processLoop_error_mono {fetch : OcrBet → FetchResult} :
    ∀ (bets : List OcrBet) (c : Conn) (db : DBState),
      processLoop fetch c bets = .error db →
      ∀ r ∈ c.committed.betResults, r ∈ db.betResults := by
  intro bets
  induction bets with
  | nil => intro c db h; cases h
  | cons bet rest ih =>
    intro c db h
    simp only [processLoop] at h
    split at h
    · cases h; exact fun r hr => hr
    · exact ih c db h
    · exact fun r hr => ih _ db h r (settleUnplayed_committed_mono hr)
    · exact fun r hr => ih _ db h r (settleUnplayed_committed_mono hr)
    · next gs hf =>
      split at h
      · next e hib => exact ih c db h
      · next c2 hib =>
        exact fun r hr => ih _ db h r (insertBetResults_committed_mono hib hr)
    · next gs hf =>
      split at h
      · next e hib =>
        exact fun r hr => ih _ db h r (commit_committed_mono hr)
      · next c2 hib =>
        exact fun r hr => ih _ db h r
          (insertBetResults_committed_mono hib (commit_committed_mono hr))

/-- C3 (amended): a transport-error exit does not undo committed writes: any
bet result row already committed when the loop dies survives into the final
state; and the rollback path of the outer handler only discards the pending
transaction, so a failure before the loop reports failure with the initial
state intact. -/
theorem C3_rollback_scope :
    (∀ (fetch : OcrBet → FetchResult) (c : Conn) (bets : List OcrBet) (db : DBState),
      processLoop fetch c bets = .error db →
      ∀ r ∈ c.committed.betResults, r ∈ db.betResults) ∧
    (∀ (fetch : OcrBet → FetchResult) (bets : List OcrBet) (init : DBState),
      processNewBets fetch bets init true = .failed init) := by
  constructor
  · intro fetch c bets db h
    exact processLoop_error_mono bets c db h
  · intro fetch bets init
    rfl

/-- Witness for C3 at a concrete one-bet run that dies on a transport error:
the previously committed result row is still in the final state. -/
theorem C3_rollback_scope_witness :
    (⟨1, 10, "points", "Win", 100, "30-35", "Over", 25, 22⟩ : BetResultRow) ∈
      (⟨[], [], [⟨1, 10, "points", "Win", 100, "30-35", "Over", 25, 22⟩], []⟩
        : DBState).betResults :=
  C3_rollback_scope.1 (fun _ => .apiTransportError)
    ⟨⟨[], [], [⟨1, 10, "points", "Win", 100, "30-35", "Over", 25, 22⟩], []⟩, []⟩
    [⟨2, 11, "points", 30, "2025-01-15", "o21.5", -150⟩]
    ⟨[], [], [⟨1, 10, "points", "Win", 100, "30-35", "Over", 25, 22⟩], []⟩
    rfl ⟨1, 10, "points", "Win", 100, "30-35", "Over", 25, 22⟩ (by simp)

/-- Counterexample for C3 as stated: a run in which the first candidate
settles (its game-stat and bet-result inserts commit) and the second hits a
transport error ends as a process exit, with the first candidate's writes
still present — they are not rolled back — and without the run reporting
failure through its return value. -/
theorem C3_counterexample :
    processNewBets
      (fun b => if b.id = 1 then .apiStats [("points", 25)] else .apiTransportError)
      [⟨1, 10, "points", 30, "2025-01-15", "o21.5", -150⟩,
       ⟨2, 11, "points", 30, "2025-01-15", "o21.5", -150⟩]
      ⟨[], [], [], []⟩ false
      = .exited ⟨[], [⟨10, "2025-01-15", [("points", 25)]⟩],
          [⟨1, 10, "points", "Win", 100, "30-35", "Over", 25, 43/2⟩], []⟩ ∧
    ([⟨1, 10, "points", "Win", 100, "30-35", "Over", 25, 43/2⟩] : List BetResultRow)
      ≠ ([] : List BetResultRow) := by
  constructor
  · have h : parseDecimalList? (strTail "o21.5").data = some ⟨false, 21, 5, 1⟩ := by decide
    have h2 : strHead? "o21.5" 'o' = true := by decide
    have hcalc : calcResults ⟨1, 10, "points", 30, "2025-01-15", "o21.5", -150⟩
        [("points", 25)] = .ok ⟨"Win", 100, 25, 43/2, "Over"⟩ := by
      simp [calcResults, parseFloat?, h, h2, DecimalLit.toRat, exceptBind_ok, exceptPure_eq_ok]
      norm_num
      exact fun hx => absurd hx (by decide)
    have hrange : calcScoreRange 30 = .ok "30-35" := by norm_num [calcScoreRange]
    simp [processNewBets, processLoop, insertBetResults, hcalc, hrange, exceptBind_ok,
      exceptPure_eq_ok, Conn.exec, Conn.commit, applyWrite, mkBetResultRow,
      settleUnplayed]
  · simp

theorem reviewPlayerReasons_empty {pids : List (String × ℕ)} {b : BetEntry}
    (h : PlayerValid pids b) : reviewPlayerReasons pids b = ∅ := by
  obtain ⟨p, hp, hne, hlk⟩ := h
  simp [reviewPlayerReasons, hp, hne, hlk]

theorem reviewBetTypeReasons_empty {b : BetEntry} (h : BetTypeValid b) :
    reviewBetTypeReasons b = ∅ := by
  obtain ⟨t, ht, hmem⟩ := h
  have hne : t ≠ "" := by rintro rfl; revert hmem; decide
  simp [reviewBetTypeReasons, ht, hne, hmem]

theorem reviewScoreReasons_empty {b : BetEntry} (h : ScoreValid b) :
    reviewScoreReasons b = ∅ := by
  obtain ⟨s, q, hs, hq, hlo, hhi⟩ := h
  simp [reviewScoreReasons, hs, hq, hlo, hhi]

theorem reviewBetLineReasons_empty {b : BetEntry} (h : BetLineValid b) :
    reviewBetLineReasons b = ∅ := by
  obtain ⟨s, hs, hok⟩ := h
  simp [reviewBetLineReasons, hs, hok]

theorem reviewOddsReasons_empty {b : BetEntry} (h : OddsValid b) :
    reviewOddsReasons b = ∅ := by
  obtain ⟨n, hn, hlo, hhi⟩ := h
  simp [reviewOddsReasons, hn, hlo, hhi]

theorem reviewDateReasons_empty {b : BetEntry} (h : DateValid b) :
    reviewDateReasons b = ∅ := by
  obtain ⟨s, hs, hok⟩ := h
  simp [reviewDateReasons, hs, hok]

theorem reviewPlayerReasons_single {pids : List (String × ℕ)} {b : BetEntry}
    (h : ¬PlayerValid pids b) : ∃ r, reviewPlayerReasons pids b = {r} := by
  cases hp : b.player with
  | none => exact ⟨"Missing player name", by simp [reviewPlayerReasons, hp]⟩
  | some p =>
    by_cases hne : p = ""
    · exact ⟨"Missing player name", by simp [reviewPlayerReasons, hp, hne]⟩
    · by_cases hlk : (pids.lookup p).isSome = true
      · exact absurd ⟨p, hp, hne, hlk⟩ h
      · exact ⟨"Player not found: " ++ p, by simp [reviewPlayerReasons, hp, hne, hlk]⟩

theorem reviewBetTypeReasons_single {b : BetEntry} (h : ¬BetTypeValid b) :
    ∃ r, reviewBetTypeReasons b = {r} := by
  cases ht : b.bet_type with
  | none => exact ⟨"Missing bet type", by simp [reviewBetTypeReasons, ht]⟩
  | some t =>
    by_cases hne : t = ""
    · exact ⟨"Missing bet type", by simp [reviewBetTypeReasons, ht, hne]⟩
    · by_cases hmem : t ∈ canonicalBetTypes
      · exact absurd ⟨t, ht, hmem⟩ h
      · exact ⟨"Invalid bet type: " ++ t, by simp [reviewBetTypeReasons, ht, hne, hmem]⟩

theorem reviewScoreReasons_single {b : BetEntry} (h : ¬ScoreValid b) :
    ∃ r, reviewScoreReasons b = {r} := by
  cases hs : b.score with
  | none => exact ⟨"Missing score", by simp [reviewScoreReasons, hs]⟩
  | some s =>
    cases hq : parseFloat? s with
    | none => exact ⟨"Invalid score format: " ++ s, by simp [reviewScoreReasons, hs, hq]⟩
    | some q =>
      by_cases hr : validScoreRange.1 ≤ q ∧ q ≤ validScoreRange.2
      · exact absurd ⟨s, q, hs, hq, hr.1, hr.2⟩ h
      · exact ⟨scoreRangeReasonStr q, by simp [reviewScoreReasons, hs, hq, hr]⟩

theorem reviewBetLineReasons_single {b : BetEntry} (h : ¬BetLineValid b) :
    ∃ r, reviewBetLineReasons b = {r} := by
  cases hs : b.bet_line with
  | none => exact ⟨"Missing bet line", by simp [reviewBetLineReasons, hs]⟩
  | some s =>
    by_cases hok : betLineFormatOk s = true
    · exact absurd ⟨s, hs, hok⟩ h
    · exact ⟨"Invalid bet line format: " ++ s, by simp [reviewBetLineReasons, hs, hok]⟩

theorem reviewOddsReasons_single {b : BetEntry} (h : ¬OddsValid b) :
    ∃ r, reviewOddsReasons b = {r} := by
  cases hn : b.odds with
  | none => exact ⟨"Missing odds", by simp [reviewOddsReasons, hn]⟩
  | some n =>
    by_cases hr : validOddsRange.1 ≤ n ∧ n ≤ validOddsRange.2
    · exact absurd ⟨n, hn, hr.1, hr.2⟩ h
    · exact ⟨oddsRangeReasonStr n, by simp [reviewOddsReasons, hn, hr]⟩

theorem reviewDateReasons_single {b : BetEntry} (h : ¬DateValid b) :
    ∃ r, reviewDateReasons b = {r} := by
  cases hs : b.date with
  | none => exact ⟨"Missing date", by simp [reviewDateReasons, hs]⟩
  | some s =>
    by_cases hok : dateOkISO s = true
    · exact absurd ⟨s, hs, hok⟩ h
    · exact ⟨"Invalid date format: " ++ s, by simp [reviewDateReasons, hs, hok]⟩


theorem betNeedsReview_example :
    betNeedsReview exampleRoster exampleLowScoreBet
      = (true, {"Score out of expected range [20.0,100.0]: 15.0"}) := by
  have hparse : parseFloat? "15.0" = some (15 : ℚ) := by
    have h : parseDecimalList? "15.0".data = some ⟨false, 15, 0, 1⟩ := by decide
    simp [parseFloat?, h, DecimalLit.toRat]
  have hreason : scoreRangeReasonStr 15 = "Score out of expected range [20.0,100.0]: 15.0" := by
    norm_num [scoreRangeReasonStr, formatFloat, validScoreRange]
    rfl
  have hscore : reviewScoreReasons exampleLowScoreBet
      = {"Score out of expected range [20.0,100.0]: 15.0"} := by
    rw [show reviewScoreReasons exampleLowScoreBet =
      (if validScoreRange.1 ≤ (15:ℚ) ∧ (15:ℚ) ≤ validScoreRange.2 then ∅
        else {scoreRangeReasonStr 15}) from by
      simp [reviewScoreReasons, exampleLowScoreBet, hparse]]
    rw [if_neg (by norm_num [validScoreRange])]
    rw [hreason]
  have hplayer : reviewPlayerReasons exampleRoster exampleLowScoreBet = ∅ := by
    simp [reviewPlayerReasons, exampleLowScoreBet, exampleRoster, List.lookup]
  have htype : reviewBetTypeReasons exampleLowScoreBet = ∅ := by
    simp [reviewBetTypeReasons, exampleLowScoreBet]
    decide
  have hline : reviewBetLineReasons exampleLowScoreBet = ∅ := by
    simp [reviewBetLineReasons, exampleLowScoreBet]
    decide
  have hodds : reviewOddsReasons exampleLowScoreBet = ∅ := by
    simp [reviewOddsReasons, exampleLowScoreBet]
    decide
  have hdate : reviewDateReasons exampleLowScoreBet = ∅ := by
    simp [reviewDateReasons, exampleLowScoreBet]
    decide
  rw [betNeedsReview, hplayer, htype, hscore, hline, hodds, hdate]
  simp


/-- C4: the review classifier is a pure function of the candidate record and
the cached roster: with all six fields present and individually valid it
returns no review needed with an empty reason set; a violation of exactly one
field yields the review flag with exactly the one reason set of that field,
which is a singleton; the concrete record with score fifteen against bounds
twenty and one hundred yields exactly the score range reason with the Python
float formatting of the bounds. -/
theorem C4_classifier_exactness :
    (∀ (pids : List (String × ℕ)) (b : BetEntry),
      PlayerValid pids b → BetTypeValid b → ScoreValid b → BetLineValid b →
      OddsValid b → DateValid b →
      betNeedsReview pids b = (false, ∅)) ∧
    (∀ (pids : List (String × ℕ)) (b : BetEntry),
      ¬PlayerValid pids b → BetTypeValid b → ScoreValid b → BetLineValid b →
      OddsValid b → DateValid b →
      betNeedsReview pids b = (true, reviewPlayerReasons pids b) ∧
      ∃ reason, reviewPlayerReasons pids b = {reason}) ∧
    (∀ (pids : List (String × ℕ)) (b : BetEntry),
      PlayerValid pids b → ¬BetTypeValid b → ScoreValid b → BetLineValid b →
      OddsValid b → DateValid b →
      betNeedsReview pids b = (true, reviewBetTypeReasons b) ∧
      ∃ reason, reviewBetTypeReasons b = {reason}) ∧
    (∀ (pids : List (String × ℕ)) (b : BetEntry),
      PlayerValid pids b → BetTypeValid b → ¬ScoreValid b → BetLineValid b →
      OddsValid b → DateValid b →
      betNeedsReview pids b = (true, reviewScoreReasons b) ∧
      ∃ reason, reviewScoreReasons b = {reason}) ∧
    (∀ (pids : List (String × ℕ)) (b : BetEntry),
      PlayerValid pids b → BetTypeValid b → ScoreValid b → ¬BetLineValid b →
      OddsValid b → DateValid b →
      betNeedsReview pids b = (true, reviewBetLineReasons b) ∧
      ∃ reason, reviewBetLineReasons b = {reason}) ∧
    (∀ (pids : List (String × ℕ)) (b : BetEntry),
      PlayerValid pids b → BetTypeValid b → ScoreValid b → BetLineValid b →
      ¬OddsValid b → DateValid b →
      betNeedsReview pids b = (true, reviewOddsReasons b) ∧
      ∃ reason, reviewOddsReasons b = {reason}) ∧
    (∀ (pids : List (String × ℕ)) (b : BetEntry),
      PlayerValid pids b → BetTypeValid b → ScoreValid b → BetLineValid b →
      OddsValid b → ¬DateValid b →
      betNeedsReview pids b = (true, reviewDateReasons b) ∧
      ∃ reason, reviewDateReasons b = {reason}) ∧
    betNeedsReview exampleRoster exampleLowScoreBet
      = (true, {"Score out of expected range [20.0,100.0]: 15.0"}) := by
  refine ⟨?_, ?_, ?_, ?_, ?_, ?_, ?_, betNeedsReview_example⟩
  · intro pids b h1 h2 h3 h4 h5 h6
    rw [betNeedsReview, reviewPlayerReasons_empty h1, reviewBetTypeReasons_empty h2,
      reviewScoreReasons_empty h3, reviewBetLineReasons_empty h4,
      reviewOddsReasons_empty h5, reviewDateReasons_empty h6]
    simp
  · intro pids b h1 h2 h3 h4 h5 h6
    obtain ⟨r, hr⟩ := reviewPlayerReasons_single h1
    refine ⟨?_, r, hr⟩
    rw [betNeedsReview, reviewBetTypeReasons_empty h2, reviewScoreReasons_empty h3,
      reviewBetLineReasons_empty h4, reviewOddsReasons_empty h5,
      reviewDateReasons_empty h6, hr]
    simp
  · intro pids b h1 h2 h3 h4 h5 h6
    obtain ⟨r, hr⟩ := reviewBetTypeReasons_single h2
    refine ⟨?_, r, hr⟩
    rw [betNeedsReview, reviewPlayerReasons_empty h1, reviewScoreReasons_empty h3,
      reviewBetLineReasons_empty h4, reviewOddsReasons_empty h5,
      reviewDateReasons_empty h6, hr]
    simp
  · intro pids b h1 h2 h3 h4 h5 h6
    obtain ⟨r, hr⟩ := reviewScoreReasons_single h3
    refine ⟨?_, r, hr⟩
    rw [betNeedsReview, reviewPlayerReasons_empty h1, reviewBetTypeReasons_empty h2,
      reviewBetLineReasons_empty h4, reviewOddsReasons_empty h5,
      reviewDateReasons_empty h6, hr]
    simp
  · intro pids b h1 h2 h3 h4 h5 h6
    obtain ⟨r, hr⟩ := reviewBetLineReasons_single h4
    refine ⟨?_, r, hr⟩
    rw [betNeedsReview, reviewPlayerReasons_empty h1, reviewBetTypeReasons_empty h2,
      reviewScoreReasons_empty h3, reviewOddsReasons_empty h5,
      reviewDateReasons_empty h6, hr]
    simp
  · intro pids b h1 h2 h3 h4 h5 h6
    obtain ⟨r, hr⟩ := reviewOddsReasons_single h5
    refine ⟨?_, r, hr⟩
    rw [betNeedsReview, reviewPlayerReasons_empty h1, reviewBetTypeReasons_empty h2,
      reviewScoreReasons_empty h3, reviewBetLineReasons_empty h4,
      reviewDateReasons_empty h6, hr]
    simp
  · intro pids b h1 h2 h3 h4 h5 h6
    obtain ⟨r, hr⟩ := reviewDateReasons_single h6
    refine ⟨?_, r, hr⟩
    rw [betNeedsReview, reviewPlayerReasons_empty h1, reviewBetTypeReasons_empty h2,
      reviewScoreReasons_empty h3, reviewBetLineReasons_empty h4,
      reviewOddsReasons_empty h5, hr]
    simp

/-- Witness for C4 at a fully valid concrete record: no review, no reasons. -/
theorem C4_classifier_exactness_witness :
    betNeedsReview exampleRoster
      ⟨some "LeBron James", some "points", some "30.0", some "o21.5",
        some (-150), some "2025-01-15"⟩ = (false, ∅) := by
  have hparse : parseFloat? "30.0" = some (30 : ℚ) := by
    have h : parseDecimalList? "30.0".data = some ⟨false, 30, 0, 1⟩ := by decide
    simp [parseFloat?, h, DecimalLit.toRat]
  exact C4_classifier_exactness.1 exampleRoster _
    ⟨"LeBron James", rfl, by decide, by decide⟩
    ⟨"points", rfl, by decide⟩
    ⟨"30.0", 30, rfl, hparse, by norm_num [validScoreRange], by norm_num [validScoreRange]⟩
    ⟨"o21.5", rfl, by decide⟩
    ⟨-150, rfl, by decide, by decide⟩
    ⟨"2025-01-15", rfl, by decide⟩

/-- Counterexample for C4 as stated: the reason actually produced is the
capitalized string with float-formatted bounds, not the claimed lowercase
string with integer-formatted bounds. -/
theorem C4_counterexample :
    betNeedsReview exampleRoster exampleLowScoreBet
      = (true, {"Score out of expected range [20.0,100.0]: 15.0"}) ∧
    ({"Score out of expected range [20.0,100.0]: 15.0"} : Finset String)
      ≠ {"score out of expected range [20,100]: 15.0"} :=
  ⟨betNeedsReview_example, by decide⟩

theorem betNeedsReview_snd_empty {pids : List (String × ℕ)} {b : BetEntry}
    (h : (betNeedsReview pids b).1 = false) : (betNeedsReview pids b).2 = ∅ := by
  have h2 : decide ((betNeedsReview pids b).2 ≠ ∅) = false := h
  simpa using of_decide_eq_false h2

theorem betNeedsReview_fst_true {pids : List (String × ℕ)} {b : BetEntry} :
    (betNeedsReview pids b).1 = true ↔ (betNeedsReview pids b).2 ≠ ∅ := by
  constructor
  · intro h
    exact of_decide_eq_true h
  · intro h
    exact decide_eq_true h

theorem mem_imageFold (pids : List (String × ℕ)) :
    ∀ (bets : List BetEntry) (acc : Finset String) (reason : String),
      (reason ∈ bets.foldl (fun acc b =>
        let r := betNeedsReview pids b
        if r.1 then acc ∪ r.2 else acc) acc ↔
      reason ∈ acc ∨ ∃ b ∈ bets, reason ∈ (betNeedsReview pids b).2) := by
  intro bets
  induction bets with
  | nil =>
    intro acc reason
    simp
  | cons b rest ih =>
    intro acc reason
    simp only [List.foldl_cons, List.mem_cons]
    by_cases hb : (betNeedsReview pids b).1
    · rw [if_pos hb, ih]
      simp only [Finset.mem_union]
      constructor
      · rintro ((h | h) | ⟨b2, hb2, h⟩)
        · exact Or.inl h
        · exact Or.inr ⟨b, Or.inl rfl, h⟩
        · exact Or.inr ⟨b2, Or.inr hb2, h⟩
      · rintro (h | ⟨b2, (rfl | hb2), h⟩)
        · exact Or.inl (Or.inl h)
        · exact Or.inl (Or.inr h)
        · exact Or.inr ⟨b2, hb2, h⟩
    · rw [if_neg hb, ih]
      have hbf : (betNeedsReview pids b).1 = false := by
        simpa using hb
      have hempty := betNeedsReview_snd_empty hbf
      constructor
      · rintro (h | ⟨b2, hb2, h⟩)
        · exact Or.inl h
        · exact Or.inr ⟨b2, Or.inr hb2, h⟩
      · rintro (h | ⟨b2, (rfl | hb2), h⟩)
        · exact Or.inl h
        · rw [hempty] at h
          exact absurd h (Finset.not_mem_empty reason)
        · exact Or.inr ⟨b2, hb2, h⟩

theorem imageNeedsReview_mem (pids : List (String × ℕ)) (bets : List BetEntry)
    (reason : String) :
    reason ∈ (imageNeedsReview pids bets).2 ↔
      ∃ b ∈ bets, reason ∈ (betNeedsReview pids b).2 := by
  unfold imageNeedsReview
  rw [mem_imageFold]
  simp

theorem imageNeedsReview_flag (pids : List (String × ℕ)) (bets : List BetEntry) :
    (imageNeedsReview pids bets).1 = bets.any (fun b => (betNeedsReview pids b).1) := by
  rw [Bool.eq_iff_iff]
  constructor
  · intro h
    have hne : (imageNeedsReview pids bets).2 ≠ ∅ := of_decide_eq_true h
    obtain ⟨reason, hmem⟩ := Finset.nonempty_iff_ne_empty.mpr hne
    obtain ⟨b, hb, hr⟩ := (imageNeedsReview_mem pids bets reason).mp hmem
    rw [List.any_eq_true]
    refine ⟨b, hb, betNeedsReview_fst_true.mpr ?_⟩
    intro hcontra
    rw [hcontra] at hr
    exact absurd hr (Finset.not_mem_empty reason)
  · intro h
    obtain ⟨b, hb, hflag⟩ := List.any_eq_true.mp h
    have hne := betNeedsReview_fst_true.mp hflag
    obtain ⟨reason, hmem⟩ := Finset.nonempty_iff_ne_empty.mpr hne
    apply decide_eq_true
    apply Finset.nonempty_iff_ne_empty.mp
    exact ⟨reason, (imageNeedsReview_mem pids bets reason).mpr ⟨b, hb, hmem⟩⟩

theorem saveToDatabase_shared_flag (pids : List (String × ℕ)) (img : String)
    (bets : List BetEntry) :
    ∀ r ∈ saveToDatabase pids img bets,
      r.needs_review = (imageNeedsReview pids bets).1 := by
  intro r hr
  simp only [saveToDatabase, List.mem_filterMap] at hr
  obtain ⟨b, hb, hsave⟩ := hr
  unfold saveBetRow at hsave
  split at hsave
  · split at hsave
    · cases hsave
    · simp at hsave
      rw [← hsave]
  · simp at hsave
    rw [← hsave]



theorem parseFloat_15 : parseFloat? "15.0" = some (15 : ℚ) := by
  have h : parseDecimalList? "15.0".data = some ⟨false, 15, 0, 1⟩ := by decide
  simp [parseFloat?, h, DecimalLit.toRat]

/-- C8: the image review flag is the disjunction of the per-bet review
verdicts, the image reason set is exactly the union of the per-bet reason
sets, and every row saved for the image carries that shared flag value. -/
theorem C8_image_review_flag :
    (∀ (pids : List (String × ℕ)) (bets : List BetEntry),
      (imageNeedsReview pids bets).1 = bets.any (fun b => (betNeedsReview pids b).1)) ∧
    (∀ (pids : List (String × ℕ)) (bets : List BetEntry) (reason : String),
      reason ∈ (imageNeedsReview pids bets).2 ↔
        ∃ b ∈ bets, reason ∈ (betNeedsReview pids b).2) ∧
    (∀ (pids : List (String × ℕ)) (img : String) (bets : List BetEntry),
      ∀ r ∈ saveToDatabase pids img bets,
        r.needs_review = (imageNeedsReview pids bets).1) :=
  ⟨imageNeedsReview_flag, imageNeedsReview_mem, saveToDatabase_shared_flag⟩

/-- Witness for C8 at a one-bet image whose bet is flagged: the saved row
carries the image flag. -/
theorem C8_image_review_flag_witness :
    ((⟨0, some 23, some "points", some 15, some "2025-01-15", some "o21.5",
      some (-150), "img.png", (imageNeedsReview exampleRoster [exampleLowScoreBet]).1,
      false, false⟩ : RawRow)).needs_review
      = (imageNeedsReview exampleRoster [exampleLowScoreBet]).1 := by
  have hsave : saveToDatabase exampleRoster "img.png" [exampleLowScoreBet]
      = [⟨0, some 23, some "points", some 15, some "2025-01-15", some "o21.5",
          some (-150), "img.png", (imageNeedsReview exampleRoster [exampleLowScoreBet]).1,
          false, false⟩] := by
    simp [saveToDatabase, saveBetRow, savePid, exampleLowScoreBet, exampleRoster,
      parseFloat_15, List.filterMap_cons, List.lookup]
  exact C8_image_review_flag.2.2 exampleRoster "img.png" [exampleLowScoreBet] _
    (by rw [hsave]; exact List.mem_singleton.mpr rfl)

/-- C5 (amended): when the counts of the extracted field lists disagree, a
field list whose length differs from the maximum is replaced entirely by
unresolved values (every position, including those that held extracted
values), while a list matching the maximum is kept; only the two diagnostic
lists are padded at the end, keeping their extracted prefixes. -/
theorem C5_arity_replacement :
    ∀ (scores lines odds playersInText : List String)
      (scoreLines : List (String × String × String)) (m : ℕ),
      m = max (max playersInText.length lines.length) (max scores.length odds.length) →
      ((scores.length = m →
        (reconcileArities scores lines odds playersInText scoreLines).scores = scores.map some) ∧
       (scores.length ≠ m →
        (reconcileArities scores lines odds playersInText scoreLines).scores = List.replicate m none) ∧
       (lines.length = m →
        (reconcileArities scores lines odds playersInText scoreLines).lines = lines.map some) ∧
       (lines.length ≠ m →
        (reconcileArities scores lines odds playersInText scoreLines).lines = List.replicate m none) ∧
       (odds.length = m →
        (reconcileArities scores lines odds playersInText scoreLines).odds = odds.map some) ∧
       (odds.length ≠ m →
        (reconcileArities scores lines odds playersInText scoreLines).odds = List.replicate m none) ∧
       (playersInText.length = m →
        (reconcileArities scores lines odds playersInText scoreLines).players = playersInText.map some) ∧
       (playersInText.length ≠ m →
        (reconcileArities scores lines odds playersInText scoreLines).players = List.replicate m none) ∧
       ((reconcileArities scores lines odds playersInText scoreLines).readPlayers.take
          playersInText.length = playersInText.map some) ∧
       ((reconcileArities scores lines odds playersInText scoreLines).readPlayers.drop
          playersInText.length = List.replicate (m - playersInText.length) none) ∧
       ((reconcileArities scores lines odds playersInText scoreLines).readScorePatterns.take
          scoreLines.length = scoreLines.map some) ∧
       ((reconcileArities scores lines odds playersInText scoreLines).readScorePatterns.drop
          scoreLines.length = List.replicate (m - scoreLines.length) none)) := by
  intro scores lines odds playersInText scoreLines m hm
  subst hm
  simp only [reconcileArities]
  refine ⟨?_, ?_, ?_, ?_, ?_, ?_, ?_, ?_, ?_, ?_, ?_, ?_⟩
  · intro h; rw [if_pos h]
  · intro h; rw [if_neg h]
  · intro h; rw [if_pos h]
  · intro h; rw [if_neg h]
  · intro h; rw [if_pos h]
  · intro h; rw [if_neg h]
  · intro h; rw [if_pos h]
  · intro h; rw [if_neg h]
  · by_cases h : playersInText.length =
      max (max playersInText.length lines.length) (max scores.length odds.length)
    · rw [if_pos h]
      exact List.take_of_length_le (by simp)
    · rw [if_neg h]
      unfold padNA
      rw [List.take_left' (by simp)]
  · by_cases h : playersInText.length =
      max (max playersInText.length lines.length) (max scores.length odds.length)
    · rw [if_pos h, ← h]
      simp
    · rw [if_neg h]
      unfold padNA
      rw [List.drop_left' (by simp)]
  · by_cases h : scoreLines.length =
      max (max playersInText.length lines.length) (max scores.length odds.length)
    · rw [if_pos h]
      exact List.take_of_length_le (by simp)
    · rw [if_neg h]
      unfold padNA
      rw [List.take_left' (by simp)]
  · by_cases h : scoreLines.length =
      max (max playersInText.length lines.length) (max scores.length odds.length)
    · rw [if_pos h, ← h]
      simp
    · rw [if_neg h]
      unfold padNA
      rw [List.drop_left' (by simp)]

/-- Counterexample for C5 as stated: with two score/line/odds triples and one
detected player, the player list is replaced by two unresolved values — the
extracted player name at position zero is not kept, contrary to the claim. -/
theorem C5_counterexample :
    (reconcileArities ["+29.50%", "+31.00%"] ["o21.5", "o5.5"] ["-150", "-120"]
      ["LeBron James"]
      [("+29.50%", "o21.5", "-150"), ("+31.00%", "o5.5", "-120")]).players
      = [none, none] ∧
    ([none, none] : List (Option String)) ≠ [some "LeBron James", none] := by
  constructor
  · rfl
  · decide

/-- Witness for C5 at the concrete two-wager, one-player extraction. -/
theorem C5_witness :
    (reconcileArities ["+29.50%", "+31.00%"] ["o21.5", "o5.5"] ["-150", "-120"]
      ["LeBron James"]
      [("+29.50%", "o21.5", "-150"), ("+31.00%", "o5.5", "-120")]).players
      = List.replicate 2 none :=
  (C5_arity_replacement ["+29.50%", "+31.00%"] ["o21.5", "o5.5"] ["-150", "-120"]
    ["LeBron James"] [("+29.50%", "o21.5", "-150"), ("+31.00%", "o5.5", "-120")]
    2 (by decide)).2.2.2.2.2.2.2.1 (by decide)

theorem cleanData_error_iff (year : ℕ) :
    ∀ records : List RawExtract,
      ((∃ e, cleanData year records = .error e) ↔
        ∃ r ∈ records, ∃ e, cleanEntry year r = .error e) := by
  intro records
  induction records with
  | nil => simp [cleanData]
  | cons r rest ih =>
    constructor
    · rintro ⟨e, he⟩
      simp only [cleanData] at he
      cases hc : cleanEntry year r with
      | error e2 => exact ⟨r, by simp, e2, hc⟩
      | ok c =>
        rw [hc, exceptBind_ok] at he
        cases hrest : cleanData year rest with
        | error e3 =>
          obtain ⟨r2, hr2, he2⟩ := ih.mp ⟨e3, hrest⟩
          exact ⟨r2, by simp [hr2], he2⟩
        | ok l =>
          rw [hrest, exceptBind_ok] at he
          exact absurd he (by simp [exceptPure_eq_ok])
    · rintro ⟨r2, hr2, e, he⟩
      rcases List.mem_cons.mp hr2 with rfl | hr2
      · exact ⟨e, by simp [cleanData, he, exceptBind_error]⟩
      · cases hc : cleanEntry year r with
        | error e2 => exact ⟨e2, by simp [cleanData, hc, exceptBind_error]⟩
        | ok c =>
          obtain ⟨e3, he3⟩ := ih.mpr ⟨r2, hr2, e, he⟩
          exact ⟨e3, by simp [cleanData, hc, he3, exceptBind_ok, exceptBind_error]⟩

/-- C9 (amended): a conversion failure in any field of any record makes
process_image yield nothing for the whole image — the failure is not degraded
to an unresolved field; only fields that are already missing are skipped, and
a record whose odds and date are missing still cleans successfully with its
other fields kept. -/
theorem C9_conversion_abort :
    (∀ (year : ℕ) (records : List RawExtract),
      processImageClean year records = none ↔
        ∃ r ∈ records, ∃ e, cleanEntry year r = .error e) ∧
    (∀ (year : ℕ) (r : RawExtract), r.odds = none → r.date = none →
      cleanEntry year r = .ok ⟨none, r.bet_type,
        (r.bet_line.map removeSpaces).map fixBetLine,
        (r.score.map removeSpaces).map stripScore, none, r.player⟩) := by
  constructor
  · intro year records
    rw [← cleanData_error_iff year records]
    unfold processImageClean
    cases hc : cleanData year records with
    | error e => simp [hc]
    | ok l => simp [hc]
  · intro year r hodds hdate
    simp [cleanEntry, hodds, hdate, exceptBind_ok, exceptPure_eq_ok]

/-- Witness for C9 at a record with missing odds and date: cleaning succeeds
and keeps the remaining fields. -/
theorem C9_conversion_abort_witness :
    cleanEntry 2025 ⟨none, some "Points", some "o21.5", some "+29.50%", none,
      some "LeBron James"⟩ = .ok ⟨none, some "Points", some "o21.5", some "29.50",
        none, some "LeBron James"⟩ := by
  have h := C9_conversion_abort.2 2025
    ⟨none, some "Points", some "o21.5", some "+29.50%", none, some "LeBron James"⟩ rfl rfl
  simpa [removeSpaces, fixBetLine, stripScore] using h

/-- Counterexample for C9 as stated: an image with one perfectly convertible
record and one record whose odds cannot convert yields no records at all —
the good record is discarded with the bad one instead of the bad field
degrading to unresolved. -/
theorem C9_counterexample :
    processImageClean 2025
      [⟨some "1/15", some "Points", some "o21.5", some "+29.50%", some "-150",
        some "LeBron James"⟩,
       ⟨some "1/15", some "Points", some "o5.5", some "+31.00%", some "1x0",
        some "LeBron James"⟩] = none ∧
    cleanEntry 2025 ⟨some "1/15", some "Points", some "o21.5", some "+29.50%",
      some "-150", some "LeBron James"⟩
      = .ok ⟨some "2025-01-15", some "Points", some "o21.5", some "29.50",
        some (-150), some "LeBron James"⟩ := by
  constructor
  · rfl
  · rfl

theorem applyCsvRow_preserves {players : List (String × ℕ)} {db : List RawRow}
    {bet : CsvRow} {x : RawRow} (hx : x ∈ db) (hne : x.id ≠ bet.id) :
    x ∈ applyCsvRow players db bet := by
  unfold applyCsvRow
  split
  · exact hx
  · split
    · exact hx
    · split
      · exact hx
      · refine List.mem_map.mpr ⟨x, hx, ?_⟩
        rw [if_neg hne]

theorem csvFold_preserves {players : List (String × ℕ)} :
    ∀ (csv : List CsvRow) (db : List RawRow) (x : RawRow),
      x ∈ db → x.id ∉ csv.map (fun b => b.id) →
      x ∈ csv.foldl (applyCsvRow players) db := by
  intro csv
  induction csv with
  | nil =>
    intro db x hx _
    simpa using hx
  | cons bet rest ih =>
    intro db x hx hid
    simp only [List.map_cons, List.mem_cons, not_or] at hid
    simp only [List.foldl_cons]
    exact ih _ x (applyCsvRow_preserves hx hid.1) hid.2

/-- C7 (amended): for a non-empty imported table, every row currently flagged
for review and not voided whose id is absent from the table ends up in the
merged table as the same row with only is_voided set — the processed flag and
every other field are unchanged, and the import loop never touches ids that
are not in the table.  An empty imported table returns early and voids
nothing. -/
theorem C7_voiding_frame :
    ∀ (players : List (String × ℕ)) (db : List RawRow) (csv : List CsvRow) (r : RawRow),
      csv ≠ [] →
      r ∈ db → r.needs_review = true → r.is_voided = false →
      r.id ∉ csv.map (fun b => b.id) →
      { r with is_voided := true } ∈ updateReviewedEntries players db csv := by
  intro players db csv r hcsv hr hnr hnv hid
  unfold updateReviewedEntries
  rw [if_neg (by simpa using hcsv)]
  apply csvFold_preserves
  · have hflag : r.id ∈ (db.filter (fun rr => rr.needs_review ∧ ¬rr.is_voided)).map
        (fun rr => rr.id) :=
      List.mem_map_of_mem _ (List.mem_filter.mpr ⟨hr, by simp [hnr, hnv]⟩)
    have hdel : r.id ∈ ((db.filter (fun rr => rr.needs_review ∧ ¬rr.is_voided)).map
        (fun rr => rr.id)).filter (fun i => i ∉ csv.map (fun b => b.id)) :=
      List.mem_filter.mpr ⟨hflag, by simpa using hid⟩
    refine List.mem_map.mpr ⟨r, hr, ?_⟩
    rw [if_pos hdel]
  · simpa using hid

/-- Witness for C7 at a one-row table and an import holding one unrelated id:
the flagged row is voided with every other field intact. -/
theorem C7_voiding_frame_witness :
    ({ id := 9, player_id := none, bet_type := none, score := none, date := none,
       bet_line := none, odds := none, image_source := "img.png",
       needs_review := true, is_processed := false, is_voided := true } : RawRow) ∈
      updateReviewedEntries []
        [⟨9, none, none, none, none, none, none, "img.png", true, false, false⟩]
        [⟨100, none, none, none, none, none, none⟩] :=
  C7_voiding_frame [] [⟨9, none, none, none, none, none, none, "img.png", true, false, false⟩]
    [⟨100, none, none, none, none, none, none⟩]
    ⟨9, none, none, none, none, none, none, "img.png", true, false, false⟩
    (by simp) (by simp) rfl rfl (by simp)

/-- Counterexample for C7 as stated: an import table from which every row was
deleted (an empty table) voids nothing — update_reviewed_entries returns
early, leaving the flagged row untouched, while the claim requires it to be
voided. -/
theorem C7_counterexample :
    updateReviewedEntries []
      [⟨9, none, none, none, none, none, none, "img.png", true, false, false⟩] []
      = [⟨9, none, none, none, none, none, none, "img.png", true, false, false⟩] ∧
    ({ id := 9, player_id := none, bet_type := none, score := none, date := none,
       bet_line := none, odds := none, image_source := "img.png",
       needs_review := true, is_processed := false, is_voided := true } : RawRow) ∉
      [(⟨9, none, none, none, none, none, none, "img.png", true, false, false⟩ : RawRow)] := by
  constructor
  · rfl
  · decide

theorem applyWrite_rawBets_ids (d : DBState) (w : DBWrite) :
    (applyWrite d w).rawBets.map (fun r => r.id) = d.rawBets.map (fun r => r.id) := by
  cases w with
  | gameStat r => rfl
  | betResult r => rfl
  | unplayed r =>
    by_cases hcase : d.unplayedBets.any (fun u => u.raw_bet_id = r.raw_bet_id) <;>
      simp [applyWrite, hcase]
  | markProcessed i =>
    simp only [applyWrite, List.map_map]
    apply List.map_congr_left
    intro r _
    by_cases h : r.id = i <;> simp [h]

theorem applyWrites_rawBets_ids (ws : List DBWrite) (d : DBState) :
    (ws.foldl applyWrite d).rawBets.map (fun r => r.id)
      = d.rawBets.map (fun r => r.id) := by
  induction ws generalizing d with
  | nil => rfl
  | cons w ws ih => rw [List.foldl_cons, ih, applyWrite_rawBets_ids]

theorem commit_rawBets_ids (c : Conn) :
    c.commit.committed.rawBets.map (fun r => r.id)
      = c.committed.rawBets.map (fun r => r.id) :=
  applyWrites_rawBets_ids c.pending c.committed

theorem settleUnplayed_rawBets_ids (c : Conn) (bet : OcrBet) :
    (settleUnplayed c bet).committed.rawBets.map (fun r => r.id)
      = c.committed.rawBets.map (fun r => r.id) := by
  unfold settleUnplayed
  rw [exec_committed]
  exact commit_rawBets_ids _

theorem insertBetResults_rawBets_ids {c c2 : Conn} {bet : OcrBet}
    {gs : List (String × ℚ)} (h : insertBetResults c bet gs = .ok c2) :
    c2.committed.rawBets.map (fun r => r.id)
      = c.committed.rawBets.map (fun r => r.id) := by
  unfold insertBetResults at h
  cases hr : calcResults bet gs with
  | error e => rw [hr, exceptBind_error] at h; exact absurd h (by simp)
  | ok out =>
  rw [hr, exceptBind_ok] at h
  cases hs : calcScoreRange bet.score with
  | error e => rw [hs, exceptBind_error] at h; exact absurd h (by simp)
  | ok range =>
  rw [hs, exceptBind_ok, exceptPure_eq_ok] at h
  cases h
  exact commit_rawBets_ids _

theorem processLoop_rawBets_ids {fetch : OcrBet → FetchResult} :
    ∀ (bets : List OcrBet) (c : Conn),
      (∀ db, processLoop fetch c bets = .error db →
        db.rawBets.map (fun r => r.id) = c.committed.rawBets.map (fun r => r.id)) ∧
      (∀ c2, processLoop fetch c bets = .ok c2 →
        c2.commit.committed.rawBets.map (fun r => r.id)
          = c.committed.rawBets.map (fun r => r.id)) := by
  intro bets
  induction bets with
  | nil =>
    intro c
    constructor
    · intro db h; cases h
    · intro c2 h; cases h; exact commit_rawBets_ids c
  | cons bet rest ih =>
    intro c
    have hstep : ∀ res : Except DBState Conn,
        processLoop fetch c (bet :: rest) = res →
        (∀ db, res = .error db →
          db.rawBets.map (fun r => r.id) = c.committed.rawBets.map (fun r => r.id)) ∧
        (∀ c2, res = .ok c2 →
          c2.commit.committed.rawBets.map (fun r => r.id)
            = c.committed.rawBets.map (fun r => r.id)) := by
      intro res hres
      simp only [processLoop] at hres
      split at hres
      · subst hres
        constructor
        · intro db h; cases h; rfl
        · intro c2 h; cases h
      · subst hres
        exact ih c
      · subst hres
        constructor
        · intro db h
          rw [(ih _).1 db h, settleUnplayed_rawBets_ids]
        · intro c2 h
          rw [(ih _).2 c2 h, settleUnplayed_rawBets_ids]
      · subst hres
        constructor
        · intro db h
          rw [(ih _).1 db h, settleUnplayed_rawBets_ids]
        · intro c2 h
          rw [(ih _).2 c2 h, settleUnplayed_rawBets_ids]
      · next gs hf =>
        split at hres
        · next e hib =>
          subst hres
          exact ih c
        · next c2 hib =>
          subst hres
          constructor
          · intro db h
            rw [(ih _).1 db h, exec_committed, insertBetResults_rawBets_ids hib]
          · intro c3 h
            rw [(ih _).2 c3 h, exec_committed, insertBetResults_rawBets_ids hib]
      · next gs hf =>
        split at hres
        · next e hib =>
          subst hres
          constructor
          · intro db h
            rw [(ih _).1 db h, commit_rawBets_ids, exec_committed]
          · intro c3 h
            rw [(ih _).2 c3 h, commit_rawBets_ids, exec_committed]
        · next c2 hib =>
          subst hres
          constructor
          · intro db h
            rw [(ih _).1 db h, exec_committed, insertBetResults_rawBets_ids hib,
              commit_rawBets_ids, exec_committed]
          · intro c3 h
            rw [(ih _).2 c3 h, exec_committed, insertBetResults_rawBets_ids hib,
              commit_rawBets_ids, exec_committed]
    exact hstep (processLoop fetch c (bet :: rest)) rfl

theorem processNewBets_rawBets_ids (fetch : OcrBet → FetchResult) (bets : List OcrBet)
    (init : DBState) (preFail : Bool) :
    (processNewBets fetch bets init preFail).db.rawBets.map (fun r => r.id)
      = init.rawBets.map (fun r => r.id) := by
  unfold processNewBets
  by_cases hp : preFail
  · simp [hp, Conn.rollback, RunResult.db]
  · simp only [hp, Bool.false_eq_true, if_false]
    cases hloop : processLoop fetch ⟨init, []⟩ bets with
    | error db =>
      simpa [RunResult.db] using (processLoop_rawBets_ids bets ⟨init, []⟩).1 db hloop
    | ok c =>
      simpa [RunResult.db] using (processLoop_rawBets_ids bets ⟨init, []⟩).2 c hloop

theorem applyCsvRow_ids (players : List (String × ℕ)) (db : List RawRow)
    (bet : CsvRow) :
    (applyCsvRow players db bet).map (fun r => r.id) = db.map (fun r => r.id) := by
  unfold applyCsvRow
  split
  · rfl
  · split
    · rfl
    · split
      · rfl
      · simp only [List.map_map]
        apply List.map_congr_left
        intro x _
        by_cases h : x.id = bet.id <;> simp [h]

theorem csvFold_ids (players : List (String × ℕ)) :
    ∀ (csv : List CsvRow) (db : List RawRow),
      (csv.foldl (applyCsvRow players) db).map (fun r => r.id)
        = db.map (fun r => r.id) := by
  intro csv
  induction csv with
  | nil => intro db; rfl
  | cons bet rest ih =>
    intro db
    rw [List.foldl_cons, ih, applyCsvRow_ids]

theorem updateReviewedEntries_ids (players : List (String × ℕ)) (db : List RawRow)
    (csv : List CsvRow) :
    (updateReviewedEntries players db csv).map (fun r => r.id)
      = db.map (fun r => r.id) := by
  unfold updateReviewedEntries
  by_cases hcsv : csv.isEmpty
  · rw [if_pos hcsv]
  rw [if_neg hcsv]
  rw [csvFold_ids]
  simp only [List.map_map]
  apply List.map_congr_left
  intro x _
  by_cases h : x.id ∈ ((db.filter (fun rr => rr.needs_review ∧ ¬rr.is_voided)).map
      (fun rr => rr.id)).filter (fun i => i ∉ csv.map (fun b => b.id))
  · simp only [Function.comp]
    rw [if_pos h]
  · simp only [Function.comp]
    rw [if_neg h]



/-- C6 (amended): extraction keeps every row of an image untouched exactly
when the image still has a row not flagged for review; when no such row
exists, extraction deletes every row of the image before re-extracting, while
rows of other images always survive; settlement and reconciliation never
delete rows — they preserve the id list of raw_ocr_bets. -/
theorem C6_row_deletion :
    (∀ (db : List RawRow) (img : String) (r : RawRow),
      r ∈ db → r.image_source = img → r.needs_review = false →
      (getExistingData db img).2 = db) ∧
    (∀ (db : List RawRow) (img : String) (r : RawRow),
      r ∈ db → r.image_source ≠ img → r ∈ (getExistingData db img).2) ∧
    (∀ (fetch : OcrBet → FetchResult) (bets : List OcrBet) (init : DBState)
       (preFail : Bool),
      (processNewBets fetch bets init preFail).db.rawBets.map (fun r => r.id)
        = init.rawBets.map (fun r => r.id)) ∧
    (∀ (players : List (String × ℕ)) (db : List RawRow) (csv : List CsvRow),
      (updateReviewedEntries players db csv).map (fun r => r.id)
        = db.map (fun r => r.id)) := by
  refine ⟨?_, ?_, processNewBets_rawBets_ids, updateReviewedEntries_ids⟩
  · intro db img r hr h1 h2
    have hmem : r ∈ db.filter (fun rr => rr.image_source = img ∧ rr.needs_review = false) :=
      List.mem_filter.mpr ⟨hr, by simp [h1, h2]⟩
    have hne : ¬(db.filter (fun rr => rr.image_source = img ∧ rr.needs_review = false)).isEmpty
        = true := by
      intro hempty
      rw [List.isEmpty_iff] at hempty
      rw [hempty] at hmem
      cases hmem
    unfold getExistingData
    rw [if_neg hne]
  · intro db img r hr hne
    unfold getExistingData
    by_cases hempty : (db.filter (fun rr => rr.image_source = img ∧ rr.needs_review = false)).isEmpty
        = true
    · rw [if_pos hempty]
      exact List.mem_filter.mpr ⟨hr, by simpa using hne⟩
    · rw [if_neg hempty]
      exact hr

/-- Witness for C6 at a one-row image whose row does not need review: the
table is unchanged. -/
theorem C6_row_deletion_witness :
    (getExistingData
      [⟨5, none, none, none, none, none, none, "img.png", false, false, false⟩]
      "img.png").2
      = [⟨5, none, none, none, none, none, none, "img.png", false, false, false⟩] :=
  C6_row_deletion.1
    [⟨5, none, none, none, none, none, none, "img.png", false, false, false⟩]
    "img.png" ⟨5, none, none, none, none, none, none, "img.png", false, false, false⟩
    (by simp) rfl rfl

/-- Counterexample for C6 as stated: an existing candidate row flagged for
review is physically deleted by _get_existing_data when its image is
processed again — not a cascade of a duplicate insert. -/
theorem C6_counterexample :
    getExistingData
      [⟨5, none, none, none, none, none, none, "img.png", true, false, false⟩]
      "img.png" = (none, []) ∧
    (⟨5, none, none, none, none, none, none, "img.png", true, false, false⟩ : RawRow) ∈
      [(⟨5, none, none, none, none, none, none, "img.png", true, false, false⟩ : RawRow)] := by
  constructor
  · rfl
  · simp

end PropAnalyzer
